import Mathlib

/-!
# hipMallocArray unit tests: embedding and verified properties

Source: `catch/unit/memory/hipMallocArray.cc`.

The file under study is a Catch2 test suite that drives an external GPU runtime.  The
runtime is not part of the repository, so it enters the embedding as a parameter
(`Runtime`): a state type `σ` and one state transformer per API entry point.  Every test
procedure is translated into a function of type `TestM`, which threads the runtime
state, stops at the first failing check, and records every runtime call in a log.

The multi-thread test is translated with its worker threads: every worker runs its
function in one piece, at a point the runtime's schedule fixes (when the thread is
constructed, or when the main thread waits for it), and a check that fails inside a
worker ends the whole test there.  The interleaving of the calls of concurrently running
workers is not modelled.
-/

namespace HipMallocArray

/-! ## Constants of the source file -/

/-- `static constexpr auto NUM_W{4};` -/
def NUM_W : Nat := 4
/-- `static constexpr auto BIGNUM_W{100};` -/
def BIGNUM_W : Nat := 100
/-- `static constexpr auto BIGNUM_H{100};` -/
def BIGNUM_H : Nat := 100
/-- `static constexpr auto NUM_H{4};` -/
def NUM_H : Nat := 4
/-- `static constexpr auto ARRAY_LOOP{100};` -/
def ARRAY_LOOP : Nat := 100

/-- Value of `std::numeric_limits<int>::max()` for a 32-bit `int`. -/
def INT_MAX : Nat := 2147483647

/-! ## Types of the external runtime -/

/-- Status code returned by every runtime call (`hipError_t`). -/
abbrev hipError_t := Nat

/-- The success status (`hipSuccess`, value 0 in the HIP headers). -/
def hipSuccess : hipError_t := 0

/-- An array handle (`hipArray*`), represented by its pointer value. -/
abbrev hipArray_t := Nat

/-- Element types the suite instantiates `hipCreateChannelDesc<T>()` with. -/
inductive TestType
  | int
  | unsigned_int
  | float
  deriving DecidableEq, Repr

/-! ## Log of runtime calls -/

/-- A runtime call together with the values it delivered through its output parameters. -/
inductive Call (δ : Type)
  | hipSetDevice (deviceId : Int)
  | hipMemGetInfo (free total : Nat)
  | hipMallocArray (array : Bool) (desc : Option δ) (width height flags : Nat)
      (out : hipArray_t)
  | hipFreeArray (array : hipArray_t)
  deriving DecidableEq, Repr

/-- One logged runtime call: the call, its status, and the runtime state before and
after it. -/
structure Event (σ δ : Type) where
  call : Call δ
  status : hipError_t
  pre : σ
  post : σ
  deriving DecidableEq, Repr

/-- A call with the delivered values and the freed handle erased. -/
inductive Kind (δ : Type)
  | setDevice (deviceId : Int)
  | memGetInfo
  | mallocArray (array : Bool) (desc : Option δ) (width height flags : Nat)
  | freeArray
  deriving DecidableEq, Repr

/-- Kind of a logged call. -/
def Event.kind {σ δ : Type} (e : Event σ δ) : Kind δ :=
  match e.call with
  | .hipSetDevice d => .setDevice d
  | .hipMemGetInfo _ _ => .memGetInfo
  | .hipMallocArray a d w h f _ => .mallocArray a d w h f
  | .hipFreeArray _ => .freeArray

/-- Is the event an allocation call? -/
def Event.isMalloc {σ δ : Type} (e : Event σ δ) : Bool :=
  match e.call with
  | .hipMallocArray _ _ _ _ _ _ => true
  | _ => false

/-- Is the event a free call? -/
def Event.isFree {σ δ : Type} (e : Event σ δ) : Bool :=
  match e.call with
  | .hipFreeArray _ => true
  | _ => false

/-- Allocation calls of a log, in order. -/
def mallocs {σ δ : Type} (log : List (Event σ δ)) : List (Event σ δ) :=
  log.filter Event.isMalloc

/-- Free calls of a log, in order. -/
def frees {σ δ : Type} (log : List (Event σ δ)) : List (Event σ δ) :=
  log.filter Event.isFree

/-- Available-bytes values delivered by the memory-info queries of a log, in order. -/
def snapshots {σ δ : Type} (log : List (Event σ δ)) : List Nat :=
  log.filterMap fun e =>
    match e.call with
    | .hipMemGetInfo free _ => some free
    | _ => none

/-- Handles delivered by the allocation calls, in order. -/
def allocatedHandles {σ δ : Type} (log : List (Event σ δ)) : List hipArray_t :=
  log.filterMap fun e =>
    match e.call with
    | .hipMallocArray _ _ _ _ _ out => some out
    | _ => none

/-- Is the kind an allocation of the given width and height? -/
def Kind.isMallocOf {δ : Type} (width height : Nat) : Kind δ → Bool
  | .mallocArray _ _ w h _ => w == width && h == height
  | _ => false

/-- Allocation calls of a log with the given width and height, in order. -/
def mallocsOf {σ δ : Type} (width height : Nat) (log : List (Event σ δ)) :
    List (Event σ δ) :=
  log.filter fun e => e.kind.isMallocOf width height

/-- Handles passed to the free call, in order. -/
def freedHandles {σ δ : Type} (log : List (Event σ δ)) : List hipArray_t :=
  log.filterMap fun e =>
    match e.call with
    | .hipFreeArray a => some a
    | _ => none

/-! ## The test monad -/

/-- The check that ended a run, named after the macro at the failing site. -/
inductive Failure
  | HIP_CHECK
  | REQUIRE
  | HIPASSERT
  deriving DecidableEq, Repr

/-- Result of a run: normal completion with a value, or the failing check. -/
inductive Result (α : Type)
  | ok (value : α)
  | failed (check : Failure)
  deriving DecidableEq, Repr

/-- The failing check of a result, if any. -/
def Result.failure {α : Type} : Result α → Option Failure
  | .ok _ => none
  | .failed f => some f

/-- Outcome of running a piece of test code: result, final runtime state, calls made. -/
structure Run (σ δ α : Type) where
  result : Result α
  state : σ
  log : List (Event σ δ)

/-- The failing check of a run, if any. -/
def Run.failure {σ δ α : Type} (r : Run σ δ α) : Option Failure := r.result.failure

/-- Test code: a function from the runtime state to a `Run`. -/
def TestM (σ δ α : Type) : Type := σ → Run σ δ α

/-- Normal completion without a runtime call. -/
def TestM.pure {σ δ α : Type} (a : α) : TestM σ δ α := fun s => ⟨.ok a, s, []⟩

/-- Sequencing: the continuation runs only if the first part completed normally. -/
def TestM.bind {σ δ α β : Type} (m : TestM σ δ α) (k : α → TestM σ δ β) : TestM σ δ β :=
  fun s =>
    match m s with
    | ⟨.ok a, s1, l1⟩ =>
      match k a s1 with
      | ⟨r, s2, l2⟩ => ⟨r, s2, l1 ++ l2⟩
    | ⟨.failed f, s1, l1⟩ => ⟨.failed f, s1, l1⟩

/-! ## The runtime interface -/

/-- The runtime API the tests consume.  `σ` is the runtime state, `δ` the type of format
descriptors (`hipChannelFormatDesc`).

* `hipMallocArray array desc width height flags`: `array` is `false` for a null output
  pointer, `desc` is `none` for a null descriptor pointer; the result carries the status,
  the handle stored through the output pointer and the new state.
* `hipMemGetInfo` is a query: it reads the state and yields status, available bytes and
  total bytes.
* `getDeviceCount` is `HipTest::getDeviceCount()`.
* `thread_start` and `thread_join i` are what constructing a `std::thread` and joining
  the `i`-th element of `threadlist` do to the runtime state, apart from running the
  thread's function.
* `runsAtStart i` is the schedule: whether the function of thread `i` runs as soon as the
  thread is constructed, or only when the main thread waits for it in `join()`.  Either
  way it runs in one piece. -/
structure Runtime (σ δ : Type) where
  hipArrayDefault : Nat
  hipCreateChannelDesc : TestType → δ
  hipSetDevice : Int → σ → hipError_t × σ
  hipMemGetInfo : σ → hipError_t × Nat × Nat
  hipMallocArray : Bool → Option δ → Nat → Nat → Nat → σ → hipError_t × hipArray_t × σ
  hipFreeArray : hipArray_t → σ → hipError_t × σ
  getDeviceCount : σ → Int
  thread_start : σ → σ
  thread_join : Nat → σ → σ
  runsAtStart : Nat → Bool

/-- Available bytes a memory-info query reads in state `s`. -/
def Runtime.avail {σ δ : Type} (rt : Runtime σ δ) (s : σ) : Nat := (rt.hipMemGetInfo s).2.1

/-- Bytes by which a call lowered the available-bytes value. -/
def bytesTaken {σ δ : Type} (rt : Runtime σ δ) (e : Event σ δ) : Int :=
  (rt.avail e.pre : Int) - (rt.avail e.post : Int)

/-- Bytes by which a call raised the available-bytes value. -/
def bytesGivenBack {σ δ : Type} (rt : Runtime σ δ) (e : Event σ δ) : Int :=
  (rt.avail e.post : Int) - (rt.avail e.pre : Int)

/-! ## Runtime calls as test code -/

/-- The call `hipSetDevice(deviceId)`. -/
def hipSetDevice {σ δ : Type} (rt : Runtime σ δ) (deviceId : Int) :
    TestM σ δ (hipError_t × Unit) := fun s =>
  let r := rt.hipSetDevice deviceId s
  ⟨.ok (r.1, ()), r.2, [⟨.hipSetDevice deviceId, r.1, s, r.2⟩]⟩

/-- The call `hipMemGetInfo(&free, &total)`; the value is the pair written to the output
parameters. -/
def hipMemGetInfo {σ δ : Type} (rt : Runtime σ δ) : TestM σ δ (hipError_t × (Nat × Nat)) :=
  fun s =>
    let r := rt.hipMemGetInfo s
    ⟨.ok (r.1, r.2), s, [⟨.hipMemGetInfo r.2.1 r.2.2, r.1, s, s⟩]⟩

/-- The call `hipMallocArray(array, desc, width, height, flags)`; the value is the handle
stored through `array`. -/
def hipMallocArray {σ δ : Type} (rt : Runtime σ δ) (array : Bool) (desc : Option δ)
    (width height flags : Nat) : TestM σ δ (hipError_t × hipArray_t) := fun s =>
  let r := rt.hipMallocArray array desc width height flags s
  ⟨.ok (r.1, r.2.1), r.2.2, [⟨.hipMallocArray array desc width height flags r.2.1, r.1, s, r.2.2⟩]⟩

/-- The call `hipFreeArray(array)`. -/
def hipFreeArray {σ δ : Type} (rt : Runtime σ δ) (array : hipArray_t) :
    TestM σ δ (hipError_t × Unit) := fun s =>
  let r := rt.hipFreeArray array s
  ⟨.ok (r.1, ()), r.2, [⟨.hipFreeArray array, r.1, s, r.2⟩]⟩

/-! ## Check macros -/

/-- Modelled from the spec: the macro `HIP_CHECK` of `hip_test_common.hh`, the "must
succeed" check.  It evaluates the call and ends the run when the status is not success. -/
def HIP_CHECK {σ δ α : Type} (error : TestM σ δ (hipError_t × α)) : TestM σ δ α := fun s =>
  match error s with
  | ⟨.ok (localError, a), s1, l1⟩ =>
    if localError = hipSuccess then ⟨.ok a, s1, l1⟩ else ⟨.failed .HIP_CHECK, s1, l1⟩
  | ⟨.failed f, s1, l1⟩ => ⟨.failed f, s1, l1⟩

/-- Modelled from the spec: the macro `HIPASSERT` of `hip_test_common.hh`; a false
condition ends the run. -/
def HIPASSERT {σ δ : Type} (condition : Bool) : TestM σ δ Unit := fun s =>
  if condition then ⟨.ok (), s, []⟩ else ⟨.failed .HIPASSERT, s, []⟩

/-- Catch2 `REQUIRE`: a false condition fails the test case and ends the current run of
its body. -/
def REQUIRE {σ δ : Type} (condition : Bool) : TestM σ δ Unit := fun s =>
  if condition then ⟨.ok (), s, []⟩ else ⟨.failed .REQUIRE, s, []⟩

/-! ## `MallocArray_DiffSizes` -/

/-- The allocation loop `for (int i = 0; i < ARRAY_LOOP; i++)` of `MallocArray_DiffSizes`,
with `n` iterations left; the value is the filled part of `A_d`. -/
def mallocLoop {σ δ : Type} (rt : Runtime σ δ) (desc : δ) (size : Nat) :
    Nat → TestM σ δ (List hipArray_t)
  | 0 => TestM.pure []
  | n + 1 =>
    TestM.bind
      (if size = NUM_W then
        HIP_CHECK (hipMallocArray rt true (some desc) NUM_W NUM_H rt.hipArrayDefault)
      else
        HIP_CHECK (hipMallocArray rt true (some desc) BIGNUM_W BIGNUM_H rt.hipArrayDefault))
      fun a => TestM.bind (mallocLoop rt desc size n) fun rest => TestM.pure (a :: rest)

/-- The release loop `for (int i = 0; i < ARRAY_LOOP; i++) HIP_CHECK(hipFreeArray(A_d[i]))`
over the entries of `A_d`. -/
def freeLoop {σ δ : Type} (rt : Runtime σ δ) : List hipArray_t → TestM σ δ Unit
  | [] => TestM.pure ()
  | a :: rest => TestM.bind (HIP_CHECK (hipFreeArray rt a)) fun _ => freeLoop rt rest

/-- Body of the loop `for (auto &size : array_size)` of `MallocArray_DiffSizes`. -/
def sizeBody {σ δ : Type} (rt : Runtime σ δ) (size : Nat) : TestM σ δ Unit :=
  let desc := rt.hipCreateChannelDesc TestType.float
  TestM.bind (HIP_CHECK (hipMemGetInfo rt)) fun p =>
  TestM.bind (mallocLoop rt desc size ARRAY_LOOP) fun A_d =>
  TestM.bind (freeLoop rt A_d) fun _ =>
  TestM.bind (HIP_CHECK (hipMemGetInfo rt)) fun q =>
  if p.1 ≠ q.1 then HIPASSERT false else TestM.pure ()

/-- The loop `for (auto &size : array_size)`. -/
def sizeLoop {σ δ : Type} (rt : Runtime σ δ) : List Nat → TestM σ δ Unit
  | [] => TestM.pure ()
  | size :: rest => TestM.bind (sizeBody rt size) fun _ => sizeLoop rt rest

/-- The function `MallocArray_DiffSizes(int gpu)`. -/
def MallocArray_DiffSizes {σ δ : Type} (rt : Runtime σ δ) (gpu : Int) : TestM σ δ Unit :=
  TestM.bind (HIP_CHECK (hipSetDevice rt gpu)) fun _ =>
  let array_size : List Nat := [NUM_W, BIGNUM_W]
  sizeLoop rt array_size

/-- The function `MallocArrayThreadFunc(int gpu)`. -/
def MallocArrayThreadFunc {σ δ : Type} (rt : Runtime σ δ) (gpu : Int) : TestM σ δ Unit :=
  MallocArray_DiffSizes rt gpu

/-- The test case `Unit_hipMallocArray_DiffSizes`. -/
def Unit_hipMallocArray_DiffSizes {σ δ : Type} (rt : Runtime σ δ) : TestM σ δ Unit :=
  MallocArray_DiffSizes rt 0

/-! ## Catch2 test cases -/

/-- Catch2 runs the body of a `TEST_CASE` once per leaf `SECTION`, in source order, and a
failing assertion in one section does not keep the later sections from running.  Each
element of `sections` is the body of the test case as executed for one leaf section; the
runtime state carries over from one run to the next. -/
def runSections {σ δ : Type} : List (TestM σ δ Unit) → σ → List (Run σ δ Unit)
  | [], _ => []
  | m :: rest, s => m s :: runSections rest (m s).state

/-- A test case passes when none of its runs failed. -/
def passes {σ δ : Type} (runs : List (Run σ δ Unit)) : Bool :=
  runs.all fun r => r.failure = none

/-- All runtime calls made by the runs of a test case, in order. -/
def allCalls {σ δ : Type} (runs : List (Run σ δ Unit)) : List (Event σ δ) :=
  (runs.map Run.log).flatten

/-! ## `Unit_hipMallocArray_Negative` -/

/-- The test case `Unit_hipMallocArray_Negative`: its leaf sections, each with its name and
the code executed for it.  `HT_NVIDIA` is the build-time switch of the `#if`. -/
def Unit_hipMallocArray_Negative {σ δ : Type} (HT_NVIDIA : Bool) (rt : Runtime σ δ) :
    List (String × TestM σ δ Unit) :=
  let desc := rt.hipCreateChannelDesc TestType.float
  (if HT_NVIDIA then
    [("NullPointer to Array",
        TestM.bind (hipMallocArray rt false (some desc) NUM_W NUM_H rt.hipArrayDefault)
          fun r => REQUIRE (r.1 != hipSuccess)),
     ("NullPointer to Channel Descriptor",
        TestM.bind (hipMallocArray rt true none NUM_W NUM_H rt.hipArrayDefault)
          fun r => REQUIRE (r.1 != hipSuccess))]
  else []) ++
  [("Width 0 in hipMallocArray",
      TestM.bind (hipMallocArray rt true (some desc) 0 NUM_H rt.hipArrayDefault)
        fun r => REQUIRE (r.1 != hipSuccess)),
   ("Height 0 in hipMallocArray",
      TestM.bind (hipMallocArray rt true (some desc) NUM_W 0 rt.hipArrayDefault)
        fun r => REQUIRE (r.1 == hipSuccess)),
   ("Invalid Flag",
      TestM.bind (hipMallocArray rt true (some desc) NUM_W NUM_H 100)
        fun r => REQUIRE (r.1 != hipSuccess)),
   ("Max int values",
      TestM.bind (hipMallocArray rt true (some desc) INT_MAX INT_MAX rt.hipArrayDefault)
        fun r => REQUIRE (r.1 != hipSuccess))]

/-- Runs of `Unit_hipMallocArray_Negative`, one per leaf section. -/
def runNegative {σ δ : Type} (HT_NVIDIA : Bool) (rt : Runtime σ δ) (s : σ) :
    List (Run σ δ Unit) :=
  runSections ((Unit_hipMallocArray_Negative HT_NVIDIA rt).map Prod.snd) s

/-! ## `Unit_hipMallocArray_Basic` -/

/-- The template test case `Unit_hipMallocArray_Basic`, instantiated at `TestType`. -/
def Unit_hipMallocArray_Basic {σ δ : Type} (rt : Runtime σ δ) (T : TestType) :
    TestM σ δ Unit :=
  let desc := rt.hipCreateChannelDesc T
  TestM.bind (hipMallocArray rt true (some desc) NUM_W NUM_H rt.hipArrayDefault) fun r =>
  TestM.bind (REQUIRE (r.1 == hipSuccess)) fun _ =>
  HIP_CHECK (hipFreeArray rt r.2)

/-- The type list `int, unsigned int, float` of the `TEMPLATE_TEST_CASE`. -/
def basicTypes : List TestType := [TestType.int, TestType.unsigned_int, TestType.float]

/-! ## `Unit_hipMallocArray_MultiThread` -/

/-- What happens during `Unit_hipMallocArray_MultiThread`, step by step: the steps of the
main thread, and `worker i run` for the function of thread `i` having run, with the run it
made. -/
inductive MainEvent (σ δ : Type)
  | getDeviceCount (devCnt : Int)
  | api (e : Event σ δ)
  | thread (body : TestM σ δ Unit)
  | worker (i : Nat) (run : Run σ δ Unit)
  | join (i : Nat)
  | WARN (msg : String)

/-- Outcome of the multi-thread test case, or of a part of it. -/
structure MainRun (σ δ : Type) where
  failure : Option Failure
  state : σ
  log : List (MainEvent σ δ)

/-- Sequencing of the steps of the multi-thread test: once a part has ended the test,
nothing further happens. -/
def MainRun.andThen {σ δ : Type} (r : MainRun σ δ) (k : σ → MainRun σ δ) : MainRun σ δ :=
  match r.failure with
  | some f => ⟨some f, r.state, r.log⟩
  | none => ⟨(k r.state).failure, (k r.state).state, r.log ++ (k r.state).log⟩

/-- Thread `i` runs its function, `MallocArrayThreadFunc(i)`, in one piece.  A check that
fails inside a worker thread takes the whole test binary down: the worker's failure is
the failure of the test, and nothing is done after it (no further thread is started or
joined, no second snapshot is taken). -/
def workerStep {σ δ : Type} (rt : Runtime σ δ) (i : Nat) (s : σ) : MainRun σ δ :=
  ⟨(MallocArrayThreadFunc rt (i : Int) s).failure, (MallocArrayThreadFunc rt (i : Int) s).state,
    [MainEvent.worker i (MallocArrayThreadFunc rt (i : Int) s)]⟩

/-- The loop `for (int i = 0; i < devCnt; i++)` that fills `threadlist`; `is` holds the
values `i` takes.  A thread the schedule runs at once does its work right after it is
constructed. -/
def startLoop {σ δ : Type} (rt : Runtime σ δ) : List Nat → σ → MainRun σ δ
  | [], s => ⟨none, s, []⟩
  | i :: rest, s =>
    MainRun.andThen
      ⟨none, rt.thread_start s, [MainEvent.thread (MallocArrayThreadFunc rt (i : Int))]⟩
      fun s1 =>
    MainRun.andThen (if rt.runsAtStart i then workerStep rt i s1 else ⟨none, s1, []⟩)
      fun s2 =>
    startLoop rt rest s2

/-- The loop `for (auto &t : threadlist) t.join()`; `ts` holds the positions in
`threadlist`.  A thread that has not run yet does its work while the main thread waits
for it. -/
def joinLoop {σ δ : Type} (rt : Runtime σ δ) : List Nat → σ → MainRun σ δ
  | [], s => ⟨none, s, []⟩
  | t :: rest, s =>
    MainRun.andThen (if rt.runsAtStart t then ⟨none, s, []⟩ else workerStep rt t s)
      fun s1 =>
    MainRun.andThen ⟨none, rt.thread_join t s1, [MainEvent.join t]⟩
      fun s2 =>
    joinLoop rt rest s2

/-- The test case `Unit_hipMallocArray_MultiThread`. -/
def Unit_hipMallocArray_MultiThread {σ δ : Type} (rt : Runtime σ δ) (s : σ) : MainRun σ δ :=
  let devCnt := rt.getDeviceCount s
  let p := HIP_CHECK (hipMemGetInfo rt) s
  match p.result with
  | .failed f => ⟨some f, p.state, MainEvent.getDeviceCount devCnt :: p.log.map MainEvent.api⟩
  | .ok (pavail, _) =>
    MainRun.andThen
      ⟨none, p.state, MainEvent.getDeviceCount devCnt :: p.log.map MainEvent.api⟩
      fun s0 =>
    MainRun.andThen (startLoop rt (List.range devCnt.toNat) s0) fun s1 =>
    MainRun.andThen (joinLoop rt (List.range devCnt.toNat) s1) fun s2 =>
    let q := HIP_CHECK (hipMemGetInfo rt) s2
    match q.result with
    | .failed f => ⟨some f, q.state, q.log.map MainEvent.api⟩
    | .ok (avail, _) =>
      if pavail ≠ avail then
        ⟨some Failure.REQUIRE, q.state,
          q.log.map MainEvent.api
            ++ [MainEvent.WARN "Memory leak of hipMalloc3D API in multithreaded scenario"]⟩
      else ⟨none, q.state, q.log.map MainEvent.api⟩

/-- Is the event the run of a worker? -/
def MainEvent.isWorker {σ δ : Type} : MainEvent σ δ → Bool
  | .worker _ _ => true
  | _ => false

/-- The steps of the main thread itself, in order. -/
def mainThread {σ δ : Type} (log : List (MainEvent σ δ)) : List (MainEvent σ δ) :=
  log.filter fun e => !e.isWorker

/-- The workers that ran, in order: thread index and the run made. -/
def workerRuns {σ δ : Type} (log : List (MainEvent σ δ)) : List (Nat × Run σ δ Unit) :=
  log.filterMap fun e =>
    match e with
    | .worker i run => some (i, run)
    | _ => none

/-- The runtime calls of the main thread, in order. -/
def apiCalls {σ δ : Type} (log : List (MainEvent σ δ)) : List (Event σ δ) :=
  log.filterMap fun e =>
    match e with
    | .api c => some c
    | _ => none

/-- Warnings emitted by the main thread, in order. -/
def warnings {σ δ : Type} (log : List (MainEvent σ δ)) : List String :=
  log.filterMap fun e =>
    match e with
    | .WARN msg => some msg
    | _ => none

/-- Available-bytes values read by the main thread, in order. -/
def mainSnapshots {σ δ : Type} (log : List (MainEvent σ δ)) : List Nat :=
  log.filterMap fun e =>
    match e with
    | .api ⟨.hipMemGetInfo free _, _, _, _⟩ => some free
    | _ => none

/-! ## A concrete runtime used to evaluate the tests -/

/-- State of the sample runtime: available and total bytes, live arrays with the bytes each
holds, and the next handle to hand out. -/
structure Ledger where
  avail : Nat
  total : Nat
  live : List (hipArray_t × Nat)
  next : hipArray_t
  deriving DecidableEq, Repr

/-- Behaviour switches of the sample runtime: bytes each free withholds, the status the
memory-info query returns, the number of devices, bytes each joined thread leaves behind,
and whether null pointers are accepted by the allocation call. -/
structure LedgerConfig where
  leak : Nat
  infoStatus : hipError_t
  devices : Int
  threadBytes : Nat
  acceptNull : Bool

/-- A sample runtime with byte accounting.  An allocation is refused for a null pointer
(unless the configuration accepts them), a zero width, a flag other than the default, or a
request larger than the available bytes; otherwise it takes `width * max height 1 * 4`
bytes.  A free of a live handle gives the bytes back, less `cfg.leak`.  Every thread runs
when it is started, and a joined thread leaves `cfg.threadBytes` bytes behind. -/
def ledgerRuntime (cfg : LedgerConfig) : Runtime Ledger TestType where
  hipArrayDefault := 0
  hipCreateChannelDesc := fun T => T
  hipSetDevice := fun d s => (if 0 ≤ d ∧ d < cfg.devices then 0 else 101, s)
  hipMemGetInfo := fun s => (cfg.infoStatus, s.avail, s.total)
  hipMallocArray := fun array desc width height flags s =>
    if (array = false ∨ desc = none) ∧ cfg.acceptNull = true then (0, 0, s)
    else if array = false ∨ desc = none ∨ width = 0 ∨ flags ≠ 0 then (1, 0, s)
    else if s.avail < width * max height 1 * 4 then (2, 0, s)
    else (0, s.next,
      { s with avail := s.avail - width * max height 1 * 4,
               live := (s.next, width * max height 1 * 4) :: s.live,
               next := s.next + 1 })
  hipFreeArray := fun a s =>
    match s.live.lookup a with
    | none => (1, s)
    | some bytes =>
      (0, { s with avail := s.avail + (bytes - cfg.leak),
                   live := s.live.filter fun x => x.1 != a })
  getDeviceCount := fun _ => cfg.devices
  thread_start := fun s => s
  thread_join := fun _ s => { s with avail := s.avail - cfg.threadBytes }
  runsAtStart := fun _ => true

/-- The reference configuration: frees give everything back, queries succeed, there is
one device, and each joined thread leaves 4096 bytes of runtime context behind. -/
def hostConfig : LedgerConfig := ⟨0, 0, 1, 4096, false⟩

/-- A configuration in which allocation calls with a null pointer return success. -/
def laxConfig : LedgerConfig := ⟨0, 0, 1, 0, true⟩

/-- A fresh device with `bytes` bytes of memory. -/
def freshLedger (bytes : Nat) : Ledger := ⟨bytes, bytes, [], 1⟩

/-! ## Predicates on runs used by the theorems -/

/-- Every call of the log returned success. -/
def StatusesOK {σ δ : Type} (log : List (Event σ δ)) : Prop :=
  ∀ e ∈ log, e.status = hipSuccess

/-- The log leads from state `s` to state `t`: each call starts in the state the previous
one left. -/
def Chained {σ δ : Type} : σ → List (Event σ δ) → σ → Prop
  | s, [], t => s = t
  | s, e :: l, t => e.pre = s ∧ Chained e.post l t

/-- Fail-fast discipline of `HIP_CHECK`: only the last call of the log can have a
non-success status, and that is the case exactly when the run ended in `HIP_CHECK`. -/
def FailFast {σ δ α : Type} (r : Run σ δ α) : Prop :=
  StatusesOK r.log.dropLast ∧ (r.failure = some Failure.HIP_CHECK ↔ ¬ StatusesOK r.log)

/-- The event a memory-info query logs in state `s`. -/
def infoEvent {σ δ : Type} (rt : Runtime σ δ) (s : σ) : Event σ δ :=
  ⟨Call.hipMemGetInfo (rt.hipMemGetInfo s).2.1 (rt.hipMemGetInfo s).2.2,
    (rt.hipMemGetInfo s).1, s, s⟩

/-- The event `hipSetDevice(gpu)` logs in state `s`. -/
def setEvent {σ δ : Type} (rt : Runtime σ δ) (gpu : Int) (s : σ) : Event σ δ :=
  ⟨Call.hipSetDevice gpu, (rt.hipSetDevice gpu s).1, s, (rt.hipSetDevice gpu s).2⟩

/-- The event an allocation call logs in state `s`. -/
def mallocEvent {σ δ : Type} (rt : Runtime σ δ) (a : Bool) (d : Option δ) (w h f : Nat)
    (s : σ) : Event σ δ :=
  ⟨Call.hipMallocArray a d w h f (rt.hipMallocArray a d w h f s).2.1,
    (rt.hipMallocArray a d w h f s).1, s, (rt.hipMallocArray a d w h f s).2.2⟩

/-- The event a free call logs in state `s`. -/
def freeEvent {σ δ : Type} (rt : Runtime σ δ) (a : hipArray_t) (s : σ) : Event σ δ :=
  ⟨Call.hipFreeArray a, (rt.hipFreeArray a s).1, s, (rt.hipFreeArray a s).2⟩

/-- The two snapshots of some geometry differ: the list of snapshots, read in consecutive
pairs (before, after), has a pair of different values. -/
def mismatch : List Nat → Bool
  | pavail :: avail :: rest => pavail != avail || mismatch rest
  | _ => false

/-- Kind of the allocation call the loop of `MallocArray_DiffSizes` makes for `size`. -/
def sweepKind {σ δ : Type} (rt : Runtime σ δ) (size : Nat) : Kind δ :=
  if size = NUM_W then
    Kind.mallocArray true (some (rt.hipCreateChannelDesc TestType.float)) NUM_W NUM_H
      rt.hipArrayDefault
  else
    Kind.mallocArray true (some (rt.hipCreateChannelDesc TestType.float)) BIGNUM_W BIGNUM_H
      rt.hipArrayDefault

/-- The log records what the runtime answered: status, delivered values and new state of
the event are those of the runtime call on the event's start state. -/
def Event.Sound {σ δ : Type} (rt : Runtime σ δ) (e : Event σ δ) : Prop :=
  match e.call with
  | .hipSetDevice d =>
    e.status = (rt.hipSetDevice d e.pre).1 ∧ e.post = (rt.hipSetDevice d e.pre).2
  | .hipMemGetInfo free total =>
    e.status = (rt.hipMemGetInfo e.pre).1 ∧ free = (rt.hipMemGetInfo e.pre).2.1 ∧
      total = (rt.hipMemGetInfo e.pre).2.2 ∧ e.post = e.pre
  | .hipMallocArray a d w h f out =>
    e.status = (rt.hipMallocArray a d w h f e.pre).1 ∧
      out = (rt.hipMallocArray a d w h f e.pre).2.1 ∧
      e.post = (rt.hipMallocArray a d w h f e.pre).2.2
  | .hipFreeArray a =>
    e.status = (rt.hipFreeArray a e.pre).1 ∧ e.post = (rt.hipFreeArray a e.pre).2

/-- The run `r`, started in state `s`, is faithfully logged: every event records what the
runtime answered, and the events lead from `s` to the final state of the run. -/
def Faithful {σ δ α : Type} (rt : Runtime σ δ) (s : σ) (r : Run σ δ α) : Prop :=
  (∀ e ∈ r.log, e.Sound rt) ∧ Chained s r.log r.state

/-- Is the kind an allocation call with a null pointer argument? -/
def Kind.hasNullPointer {δ : Type} : Kind δ → Bool
  | .mallocArray a d _ _ _ => !a || d.isNone
  | _ => false

/-- The allocation calls of a log made with a null pointer argument. -/
def nullCalls {σ δ : Type} (log : List (Event σ δ)) : List (Event σ δ) :=
  log.filter fun e => e.kind.hasNullPointer

/-- The calls of a log made without a null pointer argument. -/
def tableCalls {σ δ : Type} (log : List (Event σ δ)) : List (Event σ δ) :=
  log.filter fun e => !e.kind.hasNullPointer

/-- The oracle of the unconditional sections of `Unit_hipMallocArray_Negative`, applied to
the status codes of the four calls in source order: width 0 must not succeed, height 0
must succeed, flag 100 must not succeed, maximum int must not succeed. -/
def tableMet : List hipError_t → Bool
  | [width0, height0, flag100, maxInt] =>
    width0 != hipSuccess && height0 == hipSuccess && flag100 != hipSuccess
      && maxInt != hipSuccess
  | _ => false

/-- The runtime `rt` with its answers to null-pointer allocation calls replaced by `ans`. -/
def withNullAnswer {σ δ : Type} (rt : Runtime σ δ)
    (ans : Bool → Option δ → Nat → Nat → Nat → σ → hipError_t × hipArray_t × σ) :
    Runtime σ δ :=
  { rt with
    hipMallocArray := fun a d w h f st =>
      if a = false ∨ d.isNone = true then ans a d w h f st
      else rt.hipMallocArray a d w h f st }

/-- The threaded part of `Unit_hipMallocArray_MultiThread`, run from state `s`: the start
loop, then the join loop. -/
def workerPhase {σ δ : Type} (rt : Runtime σ δ) (s : σ) : MainRun σ δ :=
  MainRun.andThen (startLoop rt (List.range (rt.getDeviceCount s).toNat) s) fun s1 =>
    joinLoop rt (List.range (rt.getDeviceCount s).toNat) s1

/-- Every worker of the log ran to the end without a failing check. -/
def WorkersOK {σ δ : Type} (log : List (MainEvent σ δ)) : Prop :=
  ∀ p ∈ workerRuns log, p.2.failure = none

/-- A part of the test in which only workers can fail: every worker but the last event
passed; the part failed exactly when a worker did; and then that worker's run is the last
event and its failure is the failure of the part. -/
def Killed {σ δ : Type} (r : MainRun σ δ) : Prop :=
  WorkersOK r.log.dropLast ∧ (r.failure = none ↔ WorkersOK r.log) ∧
  ∀ f, r.failure = some f →
    ∃ i w, r.log.getLast? = some (MainEvent.worker i w) ∧ w.failure = some f

/-- Is the event a step of the threaded part (thread start, worker run, join)? -/
def MainEvent.isThreadStep {σ δ : Type} : MainEvent σ δ → Bool
  | .thread _ => true
  | .worker _ _ => true
  | .join _ => true
  | _ => false

/-- Discipline of a part `r` of the threaded phase whose main-thread steps are to be `main`
and whose workers are to run in the order `order`: only workers can fail (`Killed`);
every worker runs `MallocArray_DiffSizes` on the device of its own index; the part
consists of thread steps only; the main-thread steps made are an initial part of `main`
and the workers that ran an initial part of `order`; and when the part did not fail, all
of `main` was made and all of `order` ran. -/
def ThreadedPart {σ δ : Type} (rt : Runtime σ δ) (main : List (MainEvent σ δ))
    (order : List Nat) (r : MainRun σ δ) : Prop :=
  Killed r ∧
  (∀ p ∈ workerRuns r.log, ∃ t, p.2 = MallocArray_DiffSizes rt (p.1 : Int) t) ∧
  (∀ e ∈ r.log, e.isThreadStep = true) ∧
  mainThread r.log <+: main ∧
  (workerRuns r.log).map Prod.fst <+: order ∧
  (r.failure = none →
    mainThread r.log = main ∧ (workerRuns r.log).map Prod.fst = order)

/-- All calls `MallocArray_DiffSizes(gpu)` makes when nothing fails, in order: device
selection and then, for the small and for the large geometry, a snapshot, `ARRAY_LOOP`
allocations, `ARRAY_LOOP` frees and a snapshot. -/
def sweepCalls {σ δ : Type} (rt : Runtime σ δ) (gpu : Int) : List (Kind δ) :=
  [Kind.setDevice gpu, Kind.memGetInfo]
    ++ List.replicate ARRAY_LOOP (Kind.mallocArray true
        (some (rt.hipCreateChannelDesc TestType.float)) NUM_W NUM_H rt.hipArrayDefault)
    ++ List.replicate ARRAY_LOOP Kind.freeArray
    ++ [Kind.memGetInfo, Kind.memGetInfo]
    ++ List.replicate ARRAY_LOOP (Kind.mallocArray true
        (some (rt.hipCreateChannelDesc TestType.float)) BIGNUM_W BIGNUM_H rt.hipArrayDefault)
    ++ List.replicate ARRAY_LOOP Kind.freeArray
    ++ [Kind.memGetInfo]

/-- The calls of `sweepCalls` up to the second snapshot of the small geometry. -/
def smallSweepCalls {σ δ : Type} (rt : Runtime σ δ) (gpu : Int) : List (Kind δ) :=
  [Kind.setDevice gpu, Kind.memGetInfo]
    ++ List.replicate ARRAY_LOOP (Kind.mallocArray true
        (some (rt.hipCreateChannelDesc TestType.float)) NUM_W NUM_H rt.hipArrayDefault)
    ++ List.replicate ARRAY_LOOP Kind.freeArray
    ++ [Kind.memGetInfo]

/-- The run `r` made the calls of the sweep on device `gpu`, in their order and without
skipping any: its calls are an initial part of `sweepCalls`; every call but the last
returned success; and it stopped short of the full sequence only at a call that returned
non-success or, after the second snapshot of the small geometry, because the two
snapshots of that geometry differ. -/
def SweepCallsMade {σ δ : Type} (rt : Runtime σ δ) (gpu : Int) (r : Run σ δ Unit) : Prop :=
  (∃ tail, r.log.map Event.kind ++ tail = sweepCalls rt gpu) ∧
  StatusesOK r.log.dropLast ∧
  ((∃ e ∈ r.log, e.status ≠ hipSuccess) ∨
    r.log.map Event.kind = sweepCalls rt gpu ∨
    (r.log.map Event.kind = smallSweepCalls rt gpu ∧ mismatch (snapshots r.log) = true))

/-- The message of the `WARN` in `Unit_hipMallocArray_MultiThread`. -/
def leakWarning : String := "Memory leak of hipMalloc3D API in multithreaded scenario"

/-- Does the text `s` contain the text `t`? -/
def mentions (s t : String) : Bool :=
  s.toList.tails.any fun suffix => t.toList.isPrefixOf suffix

/-! ## Concrete inputs -/

/-- The sample runtime in its reference configuration. -/
def hostRuntime : Runtime Ledger TestType := ledgerRuntime hostConfig

/-- A fresh device with 5,000,000 bytes. -/
def hostStart : Ledger := freshLedger 5000000

/-- State of the reference runtime once the small geometry has been swept from
`hostStart`: all bytes are back, 100 handles have been used. -/
def hostAfterSmall : Ledger := ⟨5000000, 5000000, [], 101⟩

/-- State of the reference runtime once both geometries have been swept. -/
def hostAfterSweep : Ledger := ⟨5000000, 5000000, [], 201⟩

/-- State of the reference runtime once one worker thread has run and was joined: the
thread left 4096 bytes behind. -/
def hostAfterThread : Ledger := ⟨4995904, 5000000, [], 201⟩

/-- A fresh device with room for two 4x4 float arrays only. -/
def tightStart : Ledger := freshLedger 150

/-- The third allocation on `tightStart`: refused for lack of memory (status 2). -/
def refusedAlloc : Event Ledger TestType :=
  ⟨Call.hipMallocArray true (some TestType.float) 4 4 0 0, 2,
    ⟨22, 150, [(2, 64), (1, 64)], 3⟩, ⟨22, 150, [(2, 64), (1, 64)], 3⟩⟩

/-! # Theorems -/

variable {σ δ α β : Type}

/-! ## Sequencing -/

theorem bind_result (m : TestM σ δ α) (k : α → TestM σ δ β) (s : σ) :
    (TestM.bind m k s).result =
      match (m s).result with
      | .ok a => (k a (m s).state).result
      | .failed f => .failed f := by
  unfold TestM.bind
  rcases h : m s with ⟨res, s1, l1⟩
  cases res <;> simp

theorem bind_log (m : TestM σ δ α) (k : α → TestM σ δ β) (s : σ) :
    (TestM.bind m k s).log =
      match (m s).result with
      | .ok a => (m s).log ++ (k a (m s).state).log
      | .failed _ => (m s).log := by
  unfold TestM.bind
  rcases h : m s with ⟨res, s1, l1⟩
  cases res <;> simp

theorem bind_state (m : TestM σ δ α) (k : α → TestM σ δ β) (s : σ) :
    (TestM.bind m k s).state =
      match (m s).result with
      | .ok a => (k a (m s).state).state
      | .failed _ => (m s).state := by
  unfold TestM.bind
  rcases h : m s with ⟨res, s1, l1⟩
  cases res <;> simp

theorem statusesOK_nil : StatusesOK ([] : List (Event σ δ)) := by
  intro e he; cases he

theorem statusesOK_append {l1 l2 : List (Event σ δ)} :
    StatusesOK (l1 ++ l2) ↔ StatusesOK l1 ∧ StatusesOK l2 := by
  unfold StatusesOK
  constructor
  · intro h
    exact ⟨fun e he => h e (List.mem_append_left _ he),
      fun e he => h e (List.mem_append_right _ he)⟩
  · rintro ⟨h1, h2⟩ e he
    rcases List.mem_append.mp he with h | h
    · exact h1 e h
    · exact h2 e h

theorem statusesOK_dropLast {l : List (Event σ δ)} (h : StatusesOK l) :
    StatusesOK l.dropLast :=
  fun e he => h e (List.dropLast_subset l he)

theorem chained_append {s m t : σ} {l1 l2 : List (Event σ δ)}
    (h1 : Chained s l1 m) (h2 : Chained m l2 t) : Chained s (l1 ++ l2) t := by
  induction l1 generalizing s with
  | nil => simp [Chained] at h1; subst h1; simpa using h2
  | cons e l ih =>
    simp only [Chained] at h1
    simp only [List.cons_append, Chained]
    exact ⟨h1.1, ih h1.2⟩

theorem chained_sum (rt : Runtime σ δ) {s t : σ} {l : List (Event σ δ)}
    (h : Chained s l t) :
    (l.map (bytesGivenBack rt)).sum = (rt.avail t : Int) - (rt.avail s : Int) := by
  induction l generalizing s with
  | nil => simp [Chained] at h; subst h; simp
  | cons e l ih =>
    simp only [Chained] at h
    simp only [List.map_cons, List.sum_cons, ih h.2, bytesGivenBack, h.1]
    ring

/-- Sequencing preserves the fail-fast discipline. -/
theorem failFast_bind {m : TestM σ δ α} {k : α → TestM σ δ β} {s : σ}
    (hm : FailFast (m s)) (hk : ∀ a, (m s).result = .ok a → FailFast (k a (m s).state)) :
    FailFast (TestM.bind m k s) := by
  unfold FailFast Run.failure at *
  rw [bind_result, bind_log]
  rcases hres : (m s).result with a | f
  · simp only
    have hok : StatusesOK (m s).log := by
      by_contra hc
      have := hm.2.mpr hc
      rw [hres] at this
      simp [Result.failure] at this
    obtain ⟨hk1, hk2⟩ := hk a hres
    constructor
    · by_cases hnil : (k a (m s).state).log = []
      · rw [hnil, List.append_nil]; exact statusesOK_dropLast hok
      · rw [List.dropLast_append_of_ne_nil _ hnil]
        exact statusesOK_append.mpr ⟨hok, hk1⟩
    · rw [hk2, statusesOK_append]
      simp [hok]
  · simp only
    rw [hres] at hm
    exact hm

/-! ## Checked runtime calls -/

theorem check_setDevice_run (rt : Runtime σ δ) (gpu : Int) (s : σ) :
    HIP_CHECK (hipSetDevice rt gpu) s =
      ⟨if (rt.hipSetDevice gpu s).1 = hipSuccess then .ok () else .failed .HIP_CHECK,
        (rt.hipSetDevice gpu s).2,
        [⟨.hipSetDevice gpu, (rt.hipSetDevice gpu s).1, s, (rt.hipSetDevice gpu s).2⟩]⟩ := by
  unfold HIP_CHECK hipSetDevice
  by_cases h : (rt.hipSetDevice gpu s).1 = hipSuccess <;> simp [h]

theorem check_memGetInfo_run (rt : Runtime σ δ) (s : σ) :
    HIP_CHECK (hipMemGetInfo rt) s =
      ⟨if (rt.hipMemGetInfo s).1 = hipSuccess then .ok (rt.hipMemGetInfo s).2
        else .failed .HIP_CHECK, s,
        [⟨.hipMemGetInfo (rt.hipMemGetInfo s).2.1 (rt.hipMemGetInfo s).2.2,
          (rt.hipMemGetInfo s).1, s, s⟩]⟩ := by
  unfold HIP_CHECK hipMemGetInfo
  by_cases h : (rt.hipMemGetInfo s).1 = hipSuccess <;> simp [h]

theorem check_malloc_run (rt : Runtime σ δ) (a : Bool) (d : Option δ) (w h f : Nat) (s : σ) :
    HIP_CHECK (hipMallocArray rt a d w h f) s =
      ⟨if (rt.hipMallocArray a d w h f s).1 = hipSuccess
          then .ok (rt.hipMallocArray a d w h f s).2.1 else .failed .HIP_CHECK,
        (rt.hipMallocArray a d w h f s).2.2,
        [⟨.hipMallocArray a d w h f (rt.hipMallocArray a d w h f s).2.1,
          (rt.hipMallocArray a d w h f s).1, s, (rt.hipMallocArray a d w h f s).2.2⟩]⟩ := by
  unfold HIP_CHECK hipMallocArray
  by_cases hs : (rt.hipMallocArray a d w h f s).1 = hipSuccess <;> simp [hs]

theorem check_free_run (rt : Runtime σ δ) (a : hipArray_t) (s : σ) :
    HIP_CHECK (hipFreeArray rt a) s =
      ⟨if (rt.hipFreeArray a s).1 = hipSuccess then .ok () else .failed .HIP_CHECK,
        (rt.hipFreeArray a s).2,
        [⟨.hipFreeArray a, (rt.hipFreeArray a s).1, s, (rt.hipFreeArray a s).2⟩]⟩ := by
  unfold HIP_CHECK hipFreeArray
  by_cases h : (rt.hipFreeArray a s).1 = hipSuccess <;> simp [h]

/-- A run that made one call is fail-fast when it ended in `HIP_CHECK` exactly on a
non-success status. -/
theorem failFast_single {r : Run σ δ α} {e : Event σ δ} (hlog : r.log = [e])
    (hf : r.failure = some Failure.HIP_CHECK ↔ e.status ≠ hipSuccess) : FailFast r := by
  unfold FailFast
  rw [hlog]
  refine ⟨by simpa using statusesOK_nil, ?_⟩
  rw [hf]
  simp [StatusesOK]

theorem failFast_pure (a : α) (s : σ) : FailFast (TestM.pure a s : Run σ δ α) := by
  unfold FailFast TestM.pure Run.failure
  simp [statusesOK_nil, Result.failure]

theorem failFast_check_malloc (rt : Runtime σ δ) (a : Bool) (d : Option δ) (w h f : Nat)
    (s : σ) : FailFast (HIP_CHECK (hipMallocArray rt a d w h f) s) := by
  rw [check_malloc_run]
  refine failFast_single rfl ?_
  by_cases hs : (rt.hipMallocArray a d w h f s).1 = hipSuccess <;>
    simp [hs, Run.failure, Result.failure]

theorem failFast_check_free (rt : Runtime σ δ) (a : hipArray_t) (s : σ) :
    FailFast (HIP_CHECK (hipFreeArray rt a) s) := by
  rw [check_free_run]
  refine failFast_single rfl ?_
  by_cases hs : (rt.hipFreeArray a s).1 = hipSuccess <;>
    simp [hs, Run.failure, Result.failure]

theorem failFast_check_memGetInfo (rt : Runtime σ δ) (s : σ) :
    FailFast (HIP_CHECK (hipMemGetInfo rt) s) := by
  rw [check_memGetInfo_run]
  refine failFast_single rfl ?_
  by_cases hs : (rt.hipMemGetInfo s).1 = hipSuccess <;>
    simp [hs, Run.failure, Result.failure]

theorem failFast_check_setDevice (rt : Runtime σ δ) (gpu : Int) (s : σ) :
    FailFast (HIP_CHECK (hipSetDevice rt gpu) s) := by
  rw [check_setDevice_run]
  refine failFast_single rfl ?_
  by_cases hs : (rt.hipSetDevice gpu s).1 = hipSuccess <;>
    simp [hs, Run.failure, Result.failure]

/-! ## The allocation loop -/

/-- A checked allocation call logs one allocation event and ends the run exactly when
the status is not success. -/
theorem checked_malloc_event (rt : Runtime σ δ) (d : Option δ) (w h f : Nat) (s : σ) :
    ∃ (e : Event σ δ) (res : Result hipArray_t),
      HIP_CHECK (hipMallocArray rt true d w h f) s = ⟨res, e.post, [e]⟩ ∧
      e.pre = s ∧ e.isMalloc = true ∧ e.kind = Kind.mallocArray true d w h f ∧
      (e.status = hipSuccess → ∃ a, res = .ok a ∧ allocatedHandles [e] = [a]) ∧
      (e.status ≠ hipSuccess → res = .failed Failure.HIP_CHECK) := by
  rw [check_malloc_run]
  refine ⟨⟨.hipMallocArray true d w h f (rt.hipMallocArray true d w h f s).2.1,
      (rt.hipMallocArray true d w h f s).1, s, (rt.hipMallocArray true d w h f s).2.2⟩,
    _, rfl, rfl, rfl, rfl, ?_, ?_⟩
  · intro hs; simp only at hs; simp [hs, allocatedHandles]
  · intro hs; simp only at hs; simp [hs]

/-- The checked allocation call of the loop body, for either geometry. -/
theorem sweepCall_run (rt : Runtime σ δ) (desc : δ) (size : Nat) (s : σ) :
    ∃ (e : Event σ δ) (res : Result hipArray_t),
      (if size = NUM_W then
          HIP_CHECK (hipMallocArray rt true (some desc) NUM_W NUM_H rt.hipArrayDefault)
        else
          HIP_CHECK (hipMallocArray rt true (some desc) BIGNUM_W BIGNUM_H rt.hipArrayDefault)) s
        = ⟨res, e.post, [e]⟩ ∧
      e.pre = s ∧ e.isMalloc = true ∧
      e.kind = (if size = NUM_W then
          Kind.mallocArray true (some desc) NUM_W NUM_H rt.hipArrayDefault
        else Kind.mallocArray true (some desc) BIGNUM_W BIGNUM_H rt.hipArrayDefault) ∧
      (e.status = hipSuccess → ∃ a, res = .ok a ∧ allocatedHandles [e] = [a]) ∧
      (e.status ≠ hipSuccess → res = .failed Failure.HIP_CHECK) := by
  by_cases hsz : size = NUM_W
  · simp only [hsz, if_true]
    exact checked_malloc_event rt (some desc) NUM_W NUM_H rt.hipArrayDefault s
  · simp only [hsz, if_false]
    exact checked_malloc_event rt (some desc) BIGNUM_W BIGNUM_H rt.hipArrayDefault s

theorem mallocLoop_spec (rt : Runtime σ δ) (desc : δ) (size : Nat) (n : Nat) (s : σ) :
    Chained s (mallocLoop rt desc size n s).log (mallocLoop rt desc size n s).state ∧
    (∀ e ∈ (mallocLoop rt desc size n s).log, e.isMalloc = true ∧
      e.kind = (if size = NUM_W then
          Kind.mallocArray true (some desc) NUM_W NUM_H rt.hipArrayDefault
        else Kind.mallocArray true (some desc) BIGNUM_W BIGNUM_H rt.hipArrayDefault)) ∧
    (mallocLoop rt desc size n s).log.length ≤ n ∧
    FailFast (mallocLoop rt desc size n s) ∧
    ((∃ A_d, (mallocLoop rt desc size n s).result = .ok A_d ∧ A_d.length = n ∧
        (mallocLoop rt desc size n s).log.length = n ∧
        allocatedHandles (mallocLoop rt desc size n s).log = A_d) ∨
      (mallocLoop rt desc size n s).result = .failed Failure.HIP_CHECK) := by
  induction n generalizing s with
  | zero =>
    simp only [mallocLoop, TestM.pure]
    refine ⟨rfl, by simp, by simp, ?_, Or.inl ⟨[], rfl, rfl, rfl, rfl⟩⟩
    exact failFast_pure _ _
  | succ n ih =>
    obtain ⟨e, res, hrun, hpre, hism, hkind, hok, hbad⟩ := sweepCall_run rt desc size s
    by_cases hst : e.status = hipSuccess
    · obtain ⟨a, ha, hae⟩ := hok hst
      subst ha
      obtain ⟨ih1, ih2, ih3, ih4, ih5⟩ := ih e.post
      have hlog : (mallocLoop rt desc size (n + 1) s).log
          = e :: (mallocLoop rt desc size n e.post).log := by
        simp only [mallocLoop]
        rw [bind_log, hrun]
        simp only
        rw [bind_log]
        cases (mallocLoop rt desc size n e.post).result <;> simp [TestM.pure]
      have hstate : (mallocLoop rt desc size (n + 1) s).state
          = (mallocLoop rt desc size n e.post).state := by
        simp only [mallocLoop]
        rw [bind_state, hrun]
        simp only
        rw [bind_state]
        cases (mallocLoop rt desc size n e.post).result <;> simp [TestM.pure]
      have hres : (mallocLoop rt desc size (n + 1) s).result
          = match (mallocLoop rt desc size n e.post).result with
            | .ok rest => .ok (a :: rest)
            | .failed f => .failed f := by
        simp only [mallocLoop]
        rw [bind_result, hrun]
        simp only
        rw [bind_result]
        cases (mallocLoop rt desc size n e.post).result <;> simp [TestM.pure]
      refine ⟨?_, ?_, ?_, ?_, ?_⟩
      · rw [hlog, hstate]; exact ⟨hpre, ih1⟩
      · rw [hlog]
        intro x hx
        rcases List.mem_cons.mp hx with h | h
        · subst h; exact ⟨hism, hkind⟩
        · exact ih2 x h
      · rw [hlog]; simp only [List.length_cons]; omega
      · unfold FailFast Run.failure at ih4 ⊢
        rw [hlog, hres]
        have hfe : (match (mallocLoop rt desc size n e.post).result with
              | .ok rest => (Result.ok (a :: rest) : Result (List hipArray_t))
              | .failed f => .failed f).failure
            = (mallocLoop rt desc size n e.post).result.failure := by
          cases (mallocLoop rt desc size n e.post).result <;> rfl
        rw [hfe]
        have hcons : StatusesOK (e :: (mallocLoop rt desc size n e.post).log)
            ↔ StatusesOK (mallocLoop rt desc size n e.post).log := by
          simp [StatusesOK, hst]
        constructor
        · by_cases hnil : (mallocLoop rt desc size n e.post).log = []
          · rw [hnil]; simpa using statusesOK_nil
          · rw [List.dropLast_cons_of_ne_nil hnil]
            intro x hx
            rcases List.mem_cons.mp hx with h | h
            · subst h; exact hst
            · exact ih4.1 x h
        · rw [hcons]; exact ih4.2
      · rw [hres, hlog]
        rcases ih5 with ⟨A_d, h1, h2, h3, h4⟩ | h
        · left
          refine ⟨a :: A_d, ?_, by simp [h2], by simp [h3], ?_⟩
          · rw [h1]
          · have happ : allocatedHandles (e :: (mallocLoop rt desc size n e.post).log)
                = allocatedHandles [e] ++ allocatedHandles (mallocLoop rt desc size n e.post).log := by
              unfold allocatedHandles
              rw [← List.filterMap_append]
              rfl
            rw [happ, hae, h4]
            rfl
        · right
          rw [h]
    · have hr := hbad hst
      subst hr
      have hlog : (mallocLoop rt desc size (n + 1) s).log = [e] := by
        simp only [mallocLoop]
        rw [bind_log, hrun]
      have hstate : (mallocLoop rt desc size (n + 1) s).state = e.post := by
        simp only [mallocLoop]
        rw [bind_state, hrun]
      have hres : (mallocLoop rt desc size (n + 1) s).result = .failed Failure.HIP_CHECK := by
        simp only [mallocLoop]
        rw [bind_result, hrun]
      refine ⟨?_, ?_, ?_, ?_, Or.inr hres⟩
      · rw [hlog, hstate]; exact ⟨hpre, rfl⟩
      · rw [hlog]
        intro x hx
        rcases List.mem_singleton.mp hx with h
        subst h; exact ⟨hism, hkind⟩
      · rw [hlog]; simp
      · refine failFast_single hlog ?_
        simp [Run.failure, hres, Result.failure, hst]

theorem bind_of_ok {m : TestM σ δ α} {k : α → TestM σ δ β} {s : σ} {a : α}
    (h : (m s).result = .ok a) :
    TestM.bind m k s = ⟨(k a (m s).state).result, (k a (m s).state).state,
      (m s).log ++ (k a (m s).state).log⟩ := by
  unfold TestM.bind
  rcases hm : m s with ⟨res, s1, l1⟩
  rw [hm] at h
  simp only at h
  subst h
  rfl

theorem bind_of_failed {m : TestM σ δ α} {k : α → TestM σ δ β} {s : σ} {f : Failure}
    (h : (m s).result = .failed f) :
    TestM.bind m k s = ⟨.failed f, (m s).state, (m s).log⟩ := by
  unfold TestM.bind
  rcases hm : m s with ⟨res, s1, l1⟩
  rw [hm] at h
  simp only at h
  subst h
  rfl

/-! ## The release loop -/

theorem freeLoop_spec (rt : Runtime σ δ) (A_d : List hipArray_t) (s : σ) :
    Chained s (freeLoop rt A_d s).log (freeLoop rt A_d s).state ∧
    (∀ e ∈ (freeLoop rt A_d s).log, e.isFree = true ∧ e.kind = Kind.freeArray) ∧
    (freeLoop rt A_d s).log.length ≤ A_d.length ∧
    FailFast (freeLoop rt A_d s) ∧
    (((freeLoop rt A_d s).result = .ok () ∧ (freeLoop rt A_d s).log.length = A_d.length ∧
        freedHandles (freeLoop rt A_d s).log = A_d) ∨
      (freeLoop rt A_d s).result = .failed Failure.HIP_CHECK) := by
  induction A_d generalizing s with
  | nil =>
    refine ⟨?_, ?_, ?_, failFast_pure _ _, Or.inl ⟨?_, ?_, ?_⟩⟩ <;>
      simp [freeLoop, TestM.pure, Chained, freedHandles]
  | cons a rest ih =>
    have hff : FailFast (freeLoop rt (a :: rest) s) := by
      simp only [freeLoop]
      exact failFast_bind (failFast_check_free rt a s) (fun _ _ => (ih _).2.2.2.1)
    obtain ⟨ih1, ih2, ih3, _, ih5⟩ := ih (rt.hipFreeArray a s).2
    by_cases hst : (rt.hipFreeArray a s).1 = hipSuccess
    · have hrun : freeLoop rt (a :: rest) s =
          ⟨(freeLoop rt rest (rt.hipFreeArray a s).2).result,
            (freeLoop rt rest (rt.hipFreeArray a s).2).state,
            [⟨.hipFreeArray a, (rt.hipFreeArray a s).1, s, (rt.hipFreeArray a s).2⟩] ++
              (freeLoop rt rest (rt.hipFreeArray a s).2).log⟩ := by
        have hok : (HIP_CHECK (hipFreeArray rt a) s).result = .ok () := by
          rw [check_free_run]; simp [hst]
        simp only [freeLoop]
        rw [bind_of_ok hok]
        simp only [check_free_run]
      refine ⟨?_, ?_, ?_, hff, ?_⟩
      · rw [hrun]; exact ⟨rfl, ih1⟩
      · rw [hrun]
        intro e he
        rcases List.mem_append.mp he with h | h
        · rw [List.mem_singleton.mp h]; exact ⟨rfl, rfl⟩
        · exact ih2 e h
      · rw [hrun]; simp only [List.singleton_append, List.length_cons]; omega
      · rw [hrun]
        rcases ih5 with ⟨h1, h2, h3⟩ | h
        · left
          refine ⟨h1, by simp [h2], ?_⟩
          simp only [List.singleton_append]
          unfold freedHandles at h3 ⊢
          rw [List.filterMap_cons]
          simp [h3]
        · right; exact h
    · have hrun : freeLoop rt (a :: rest) s =
          ⟨.failed Failure.HIP_CHECK, (rt.hipFreeArray a s).2,
            [⟨.hipFreeArray a, (rt.hipFreeArray a s).1, s, (rt.hipFreeArray a s).2⟩]⟩ := by
        have hbad : (HIP_CHECK (hipFreeArray rt a) s).result = .failed Failure.HIP_CHECK := by
          rw [check_free_run]; simp [hst]
        simp only [freeLoop]
        rw [bind_of_failed hbad]
        simp only [check_free_run]
      refine ⟨?_, ?_, ?_, hff, ?_⟩
      · rw [hrun]; exact ⟨rfl, rfl⟩
      · rw [hrun]
        intro e he
        rw [List.mem_singleton.mp he]; exact ⟨rfl, rfl⟩
      · rw [hrun]; simp
      · rw [hrun]; right; rfl

/-! ## One iteration of the size loop -/

theorem failFast_nil {r : Run σ δ α} (hlog : r.log = [])
    (hf : r.failure ≠ some Failure.HIP_CHECK) : FailFast r := by
  unfold FailFast
  rw [hlog]
  refine ⟨by simpa using statusesOK_nil, ?_⟩
  constructor
  · intro h; exact absurd h hf
  · intro h; exact absurd statusesOK_nil h

theorem compare_run (p q : Nat) (s : σ) :
    (if p ≠ q then (HIPASSERT false : TestM σ δ Unit) else TestM.pure ()) s =
      ⟨if p = q then .ok () else .failed Failure.HIPASSERT, s, []⟩ := by
  by_cases h : p = q <;> simp [h, HIPASSERT, TestM.pure]

theorem sizeBody_failFast (rt : Runtime σ δ) (size : Nat) (s : σ) :
    FailFast (sizeBody rt size s) := by
  unfold sizeBody
  refine failFast_bind (failFast_check_memGetInfo rt s) (fun p _ => ?_)
  refine failFast_bind (mallocLoop_spec rt _ size _ _).2.2.2.1 (fun A_d _ => ?_)
  refine failFast_bind (freeLoop_spec rt _ _).2.2.2.1 (fun _ _ => ?_)
  refine failFast_bind (failFast_check_memGetInfo rt _) (fun q _ => ?_)
  rw [compare_run]
  refine failFast_nil rfl ?_
  by_cases h : p.1 = q.1 <;> simp [h, Run.failure, Result.failure]

theorem sweepKind_eq (rt : Runtime σ δ) (size : Nat) :
    sweepKind rt size = (if size = NUM_W then
        Kind.mallocArray true (some (rt.hipCreateChannelDesc TestType.float)) NUM_W NUM_H
          rt.hipArrayDefault
      else Kind.mallocArray true (some (rt.hipCreateChannelDesc TestType.float)) BIGNUM_W
          BIGNUM_H rt.hipArrayDefault) := rfl

/-- Shape of the log of one iteration: the first snapshot, then allocations, then frees,
then (at most) the second snapshot; each phase starts only when the previous one is
complete. -/
theorem sizeBody_shape (rt : Runtime σ δ) (size : Nat) (s : σ) :
    ∃ (M F Q : List (Event σ δ)) (s1 s2 : σ),
      (sizeBody rt size s).log = infoEvent rt s :: (M ++ F ++ Q) ∧
      (∀ e ∈ M, e.isMalloc = true ∧ e.kind = sweepKind rt size) ∧
      (∀ e ∈ F, e.isFree = true ∧ e.kind = Kind.freeArray) ∧
      Chained s M s1 ∧ Chained s1 F s2 ∧
      M.length ≤ ARRAY_LOOP ∧ F.length ≤ ARRAY_LOOP ∧
      (F ≠ [] → M.length = ARRAY_LOOP) ∧
      (Q = [] ∨ Q = [infoEvent rt s2]) ∧
      (Q ≠ [] → M.length = ARRAY_LOOP ∧ F.length = ARRAY_LOOP) ∧
      ((sizeBody rt size s).failure ≠ some Failure.HIP_CHECK →
        Q = [infoEvent rt s2] ∧ (sizeBody rt size s).state = s2 ∧
        M.length = ARRAY_LOOP ∧ F.length = ARRAY_LOOP ∧
        freedHandles F = allocatedHandles M ∧
        ((sizeBody rt size s).failure = none ↔ rt.avail s = rt.avail s2) ∧
        ((sizeBody rt size s).failure = none ∨
          (sizeBody rt size s).failure = some Failure.HIPASSERT)) := by
  by_cases hq1 : (rt.hipMemGetInfo s).1 = hipSuccess
  swap
  · -- the first query fails
    have hbad : (HIP_CHECK (hipMemGetInfo rt) s).result = .failed Failure.HIP_CHECK := by
      rw [check_memGetInfo_run]; simp [hq1]
    have hrun : sizeBody rt size s = ⟨.failed Failure.HIP_CHECK, s, [infoEvent rt s]⟩ := by
      unfold sizeBody
      rw [bind_of_failed hbad]
      simp only [check_memGetInfo_run, infoEvent]
    refine ⟨[], [], [], s, s, by rw [hrun]; rfl, by simp, by simp, rfl, rfl, by simp, by simp,
      by simp, Or.inl rfl, by simp, ?_⟩
    intro h; rw [hrun] at h; simp [Run.failure, Result.failure] at h
  have hok1 : (HIP_CHECK (hipMemGetInfo rt) s).result = .ok (rt.hipMemGetInfo s).2 := by
    rw [check_memGetInfo_run]; simp [hq1]
  have hst1 : (HIP_CHECK (hipMemGetInfo rt) s).state = s := by rw [check_memGetInfo_run]
  have hlog1 : (HIP_CHECK (hipMemGetInfo rt) s).log = [infoEvent rt s] := by
    rw [check_memGetInfo_run]; rfl
  obtain ⟨hM1, hM2, hM3, -, hM5⟩ :=
    mallocLoop_spec rt (rt.hipCreateChannelDesc TestType.float) size ARRAY_LOOP s
  rw [← sweepKind_eq] at hM2
  rcases hM5 with ⟨A_d, hMres, hAlen, hMlen, hAh⟩ | hMres
  swap
  · -- an allocation fails
    have hrun : sizeBody rt size s = ⟨.failed Failure.HIP_CHECK,
        (mallocLoop rt (rt.hipCreateChannelDesc TestType.float) size ARRAY_LOOP s).state,
        [infoEvent rt s] ++
          (mallocLoop rt (rt.hipCreateChannelDesc TestType.float) size ARRAY_LOOP s).log⟩ := by
      unfold sizeBody
      rw [bind_of_ok hok1, hst1, hlog1, bind_of_failed hMres]
    refine ⟨_, [], [], _, _, by rw [hrun]; simp, hM2, by simp, hM1, rfl, hM3, by simp,
      by simp, Or.inl rfl, by simp, ?_⟩
    intro h; rw [hrun] at h; simp [Run.failure, Result.failure] at h
  obtain ⟨hF1, hF2, hF3, -, hF5⟩ := freeLoop_spec rt A_d
    (mallocLoop rt (rt.hipCreateChannelDesc TestType.float) size ARRAY_LOOP s).state
  rw [hAlen] at hF3
  rcases hF5 with ⟨hFres, hFlen, hFh⟩ | hFres
  swap
  · -- a free fails
    have hrun : sizeBody rt size s = ⟨.failed Failure.HIP_CHECK,
        (freeLoop rt A_d
          (mallocLoop rt (rt.hipCreateChannelDesc TestType.float) size ARRAY_LOOP s).state).state,
        [infoEvent rt s] ++
          ((mallocLoop rt (rt.hipCreateChannelDesc TestType.float) size ARRAY_LOOP s).log ++
            (freeLoop rt A_d
              (mallocLoop rt (rt.hipCreateChannelDesc TestType.float) size ARRAY_LOOP
                s).state).log)⟩ := by
      unfold sizeBody
      rw [bind_of_ok hok1, hst1, hlog1, bind_of_ok hMres, bind_of_failed hFres]
    refine ⟨_, _, [], _, _, by rw [hrun]; simp, hM2, hF2, hM1, hF1, hM3, hF3,
      fun _ => hMlen, Or.inl rfl, by simp, ?_⟩
    intro h; rw [hrun] at h; simp [Run.failure, Result.failure] at h
  rw [hAlen] at hFlen
  generalize hs2 : (freeLoop rt A_d
    (mallocLoop rt (rt.hipCreateChannelDesc TestType.float) size ARRAY_LOOP s).state).state
    = s2 at *
  by_cases hq2 : (rt.hipMemGetInfo s2).1 = hipSuccess
  swap
  · -- the second query fails
    have hbad : (HIP_CHECK (hipMemGetInfo rt) s2).result = .failed Failure.HIP_CHECK := by
      rw [check_memGetInfo_run]; simp [hq2]
    have hst2 : (HIP_CHECK (hipMemGetInfo rt) s2).state = s2 := by rw [check_memGetInfo_run]
    have hlog2 : (HIP_CHECK (hipMemGetInfo rt) s2).log = [infoEvent rt s2] := by
      rw [check_memGetInfo_run]; rfl
    have hrun : sizeBody rt size s = ⟨.failed Failure.HIP_CHECK, s2,
        [infoEvent rt s] ++
          ((mallocLoop rt (rt.hipCreateChannelDesc TestType.float) size ARRAY_LOOP s).log ++
            ((freeLoop rt A_d
              (mallocLoop rt (rt.hipCreateChannelDesc TestType.float) size ARRAY_LOOP
                s).state).log ++ [infoEvent rt s2]))⟩ := by
      unfold sizeBody
      rw [bind_of_ok hok1, hst1, hlog1, bind_of_ok hMres, bind_of_ok hFres, hs2,
        bind_of_failed hbad, hst2, hlog2]
    refine ⟨_, _, [infoEvent rt s2], _, s2, by rw [hrun]; simp, hM2, hF2, hM1, hF1, hM3, hF3,
      fun _ => hMlen, Or.inr rfl, fun _ => ⟨hMlen, hFlen⟩, ?_⟩
    intro h; rw [hrun] at h; simp [Run.failure, Result.failure] at h
  -- both queries succeed: the comparison decides
  have hok2 : (HIP_CHECK (hipMemGetInfo rt) s2).result = .ok (rt.hipMemGetInfo s2).2 := by
    rw [check_memGetInfo_run]; simp [hq2]
  have hst2 : (HIP_CHECK (hipMemGetInfo rt) s2).state = s2 := by rw [check_memGetInfo_run]
  have hlog2 : (HIP_CHECK (hipMemGetInfo rt) s2).log = [infoEvent rt s2] := by
    rw [check_memGetInfo_run]; rfl
  have hrun : sizeBody rt size s =
      ⟨if (rt.hipMemGetInfo s).2.1 = (rt.hipMemGetInfo s2).2.1 then .ok ()
        else .failed Failure.HIPASSERT, s2,
        [infoEvent rt s] ++
          ((mallocLoop rt (rt.hipCreateChannelDesc TestType.float) size ARRAY_LOOP s).log ++
            ((freeLoop rt A_d
              (mallocLoop rt (rt.hipCreateChannelDesc TestType.float) size ARRAY_LOOP
                s).state).log ++ ([infoEvent rt s2] ++ [])))⟩ := by
    unfold sizeBody
    rw [bind_of_ok hok1, hst1, hlog1, bind_of_ok hMres, bind_of_ok hFres, hs2,
      bind_of_ok hok2, hst2, hlog2, compare_run]
  refine ⟨_, _, [infoEvent rt s2], _, s2, by rw [hrun]; simp, hM2, hF2, hM1, hF1, hM3, hF3,
    fun _ => hMlen, Or.inr rfl, fun _ => ⟨hMlen, hFlen⟩, ?_⟩
  intro _
  refine ⟨rfl, by rw [hrun], hMlen, hFlen, by rw [hFh, hAh], ?_, ?_⟩
  · rw [hrun]
    unfold Runtime.avail
    by_cases hc : (rt.hipMemGetInfo s).2.1 = (rt.hipMemGetInfo s2).2.1 <;>
      simp [hc, Run.failure, Result.failure]
  · rw [hrun]
    by_cases hc : (rt.hipMemGetInfo s).2.1 = (rt.hipMemGetInfo s2).2.1 <;>
      simp [hc, Run.failure, Result.failure]

/-! ## The log is faithful to the runtime -/

theorem faithful_bind (rt : Runtime σ δ) {m : TestM σ δ α} {k : α → TestM σ δ β} {s : σ}
    (hm : Faithful rt s (m s))
    (hk : ∀ a, (m s).result = .ok a → Faithful rt (m s).state (k a (m s).state)) :
    Faithful rt s (TestM.bind m k s) := by
  unfold Faithful at *
  rcases hres : (m s).result with a | f
  · rw [bind_of_ok hres]
    obtain ⟨k1, k2⟩ := hk a hres
    refine ⟨?_, chained_append hm.2 k2⟩
    intro e he
    rcases List.mem_append.mp he with h | h
    · exact hm.1 e h
    · exact k1 e h
  · rw [bind_of_failed hres]
    exact hm

theorem faithful_nil (rt : Runtime σ δ) {r : Run σ δ α} {s : σ} (hlog : r.log = [])
    (hst : r.state = s) : Faithful rt s r := by
  unfold Faithful
  rw [hlog, hst]
  exact ⟨by simp, rfl⟩

theorem faithful_check_setDevice (rt : Runtime σ δ) (gpu : Int) (s : σ) :
    Faithful rt s (HIP_CHECK (hipSetDevice rt gpu) s) := by
  rw [check_setDevice_run]
  refine ⟨?_, rfl, rfl⟩
  intro e he
  rw [List.mem_singleton.mp he]
  exact ⟨rfl, rfl⟩

theorem faithful_check_memGetInfo (rt : Runtime σ δ) (s : σ) :
    Faithful rt s (HIP_CHECK (hipMemGetInfo rt) s) := by
  rw [check_memGetInfo_run]
  refine ⟨?_, rfl, rfl⟩
  intro e he
  rw [List.mem_singleton.mp he]
  exact ⟨rfl, rfl, rfl, rfl⟩

theorem faithful_check_malloc (rt : Runtime σ δ) (a : Bool) (d : Option δ) (w h f : Nat)
    (s : σ) : Faithful rt s (HIP_CHECK (hipMallocArray rt a d w h f) s) := by
  rw [check_malloc_run]
  refine ⟨?_, rfl, rfl⟩
  intro e he
  rw [List.mem_singleton.mp he]
  exact ⟨rfl, rfl, rfl⟩

theorem faithful_check_free (rt : Runtime σ δ) (a : hipArray_t) (s : σ) :
    Faithful rt s (HIP_CHECK (hipFreeArray rt a) s) := by
  rw [check_free_run]
  refine ⟨?_, rfl, rfl⟩
  intro e he
  rw [List.mem_singleton.mp he]
  exact ⟨rfl, rfl⟩

theorem faithful_mallocLoop (rt : Runtime σ δ) (desc : δ) (size n : Nat) (s : σ) :
    Faithful rt s (mallocLoop rt desc size n s) := by
  induction n generalizing s with
  | zero => exact faithful_nil rt rfl rfl
  | succ n ih =>
    simp only [mallocLoop]
    refine faithful_bind rt ?_ (fun a _ => faithful_bind rt (ih _) (fun _ _ => ?_))
    · by_cases hsz : size = NUM_W
      · simp only [hsz, if_true]; exact faithful_check_malloc ..
      · simp only [hsz, if_false]; exact faithful_check_malloc ..
    · exact faithful_nil rt rfl rfl

theorem faithful_freeLoop (rt : Runtime σ δ) (A_d : List hipArray_t) (s : σ) :
    Faithful rt s (freeLoop rt A_d s) := by
  induction A_d generalizing s with
  | nil => exact faithful_nil rt rfl rfl
  | cons a rest ih =>
    simp only [freeLoop]
    exact faithful_bind rt (faithful_check_free rt a s) (fun _ _ => ih _)

/-- Every event in the log of `MallocArray_DiffSizes` records a call the runtime really
answered that way, and the events follow one another from the start state to the final
state of the run. -/
theorem diffSizes_faithful (rt : Runtime σ δ) (gpu : Int) (s : σ) :
    Faithful rt s (MallocArray_DiffSizes rt gpu s) := by
  unfold MallocArray_DiffSizes
  refine faithful_bind rt (faithful_check_setDevice rt gpu s) (fun _ _ => ?_)
  simp only [sizeLoop]
  have hbody : ∀ size t, Faithful rt t (sizeBody rt size t) := by
    intro size t
    unfold sizeBody
    refine faithful_bind rt (faithful_check_memGetInfo rt t) (fun p _ => ?_)
    refine faithful_bind rt (faithful_mallocLoop rt _ size _ _) (fun A_d _ => ?_)
    refine faithful_bind rt (faithful_freeLoop rt _ _) (fun _ _ => ?_)
    refine faithful_bind rt (faithful_check_memGetInfo rt _) (fun q _ => ?_)
    rw [compare_run]
    exact faithful_nil rt rfl rfl
  refine faithful_bind rt (hbody _ _) (fun _ _ => ?_)
  refine faithful_bind rt (hbody _ _) (fun _ _ => ?_)
  exact faithful_nil rt rfl rfl

/-! ## Tallies of a log -/

theorem tally_malloc {e : Event σ δ} (h : e.isMalloc = true) :
    e.isFree = false ∧ snapshots [e] = [] ∧ freedHandles [e] = [] := by
  rcases e with ⟨c, st, p, q⟩
  cases c <;> simp_all [Event.isMalloc, Event.isFree, snapshots, freedHandles]

theorem tally_free {e : Event σ δ} (h : e.isFree = true) :
    e.isMalloc = false ∧ snapshots [e] = [] ∧ allocatedHandles [e] = [] := by
  rcases e with ⟨c, st, p, q⟩
  cases c <;> simp_all [Event.isMalloc, Event.isFree, snapshots, allocatedHandles]

theorem snapshots_append (l1 l2 : List (Event σ δ)) :
    snapshots (l1 ++ l2) = snapshots l1 ++ snapshots l2 := by
  unfold snapshots; rw [List.filterMap_append]

theorem mallocs_append (l1 l2 : List (Event σ δ)) :
    mallocs (l1 ++ l2) = mallocs l1 ++ mallocs l2 := by
  unfold mallocs; rw [List.filter_append]

theorem frees_append (l1 l2 : List (Event σ δ)) :
    frees (l1 ++ l2) = frees l1 ++ frees l2 := by
  unfold frees; rw [List.filter_append]

theorem snapshots_cons (e : Event σ δ) (l : List (Event σ δ)) :
    snapshots (e :: l) = snapshots [e] ++ snapshots l := by
  rw [← snapshots_append]; rfl

theorem tally_mallocs {M : List (Event σ δ)} (h : ∀ e ∈ M, e.isMalloc = true) :
    mallocs M = M ∧ frees M = [] ∧ snapshots M = [] := by
  induction M with
  | nil => exact ⟨rfl, rfl, rfl⟩
  | cons e l ih =>
    obtain ⟨h1, h2, h3⟩ := ih (fun x hx => h x (List.mem_cons_of_mem _ hx))
    have he := h e (List.mem_cons_self _ _)
    obtain ⟨t1, t2, -⟩ := tally_malloc he
    refine ⟨?_, ?_, ?_⟩
    · unfold mallocs at h1 ⊢; rw [List.filter_cons_of_pos he, h1]
    · unfold frees at h2 ⊢; rw [List.filter_cons_of_neg (by simp [t1]), h2]
    · rw [snapshots_cons, t2, h3]; rfl

theorem tally_frees {F : List (Event σ δ)} (h : ∀ e ∈ F, e.isFree = true) :
    mallocs F = [] ∧ frees F = F ∧ snapshots F = [] := by
  induction F with
  | nil => exact ⟨rfl, rfl, rfl⟩
  | cons e l ih =>
    obtain ⟨h1, h2, h3⟩ := ih (fun x hx => h x (List.mem_cons_of_mem _ hx))
    have he := h e (List.mem_cons_self _ _)
    obtain ⟨t1, t2, -⟩ := tally_free he
    refine ⟨?_, ?_, ?_⟩
    · unfold mallocs at h1 ⊢; rw [List.filter_cons_of_neg (by simp [t1]), h1]
    · unfold frees at h2 ⊢; rw [List.filter_cons_of_pos he, h2]
    · rw [snapshots_cons, t2, h3]; rfl

theorem tally_info (rt : Runtime σ δ) (s : σ) :
    mallocs [infoEvent rt s] = [] ∧ frees [infoEvent rt s] = [] ∧
    snapshots [infoEvent rt s] = [rt.avail s] ∧ (infoEvent rt s).kind = Kind.memGetInfo ∧
    (infoEvent rt s).isMalloc = false ∧ (infoEvent rt s).isFree = false :=
  ⟨rfl, rfl, rfl, rfl, rfl, rfl⟩

theorem tally_set (rt : Runtime σ δ) (gpu : Int) (s : σ) :
    mallocs [setEvent rt gpu s] = [] ∧ frees [setEvent rt gpu s] = [] ∧
    snapshots [setEvent rt gpu s] = [] ∧ (setEvent rt gpu s).kind = Kind.setDevice gpu :=
  ⟨rfl, rfl, rfl, rfl⟩

theorem kinds_const {l : List (Event σ δ)} {K : Kind δ} (h : ∀ e ∈ l, e.kind = K) :
    l.map Event.kind = List.replicate l.length K := by
  induction l with
  | nil => rfl
  | cons e l ih =>
    rw [List.map_cons, List.length_cons, List.replicate_succ, h e (List.mem_cons_self _ _),
      ih (fun x hx => h x (List.mem_cons_of_mem _ hx))]

/-- Tallies of a log of the shape `sizeBody_shape` describes. -/
theorem tally_body (rt : Runtime σ δ) (s : σ) {M F Q : List (Event σ δ)} {K : Kind δ}
    (hM : ∀ e ∈ M, e.isMalloc = true ∧ e.kind = K)
    (hF : ∀ e ∈ F, e.isFree = true ∧ e.kind = Kind.freeArray)
    (hQ : ∀ e ∈ Q, e.isMalloc = false ∧ e.isFree = false) :
    mallocs (infoEvent rt s :: (M ++ F ++ Q)) = M ∧
    frees (infoEvent rt s :: (M ++ F ++ Q)) = F ∧
    snapshots (infoEvent rt s :: (M ++ F ++ Q)) = rt.avail s :: snapshots Q ∧
    (infoEvent rt s :: (M ++ F ++ Q)).map Event.kind =
      Kind.memGetInfo :: (List.replicate M.length K ++ List.replicate F.length Kind.freeArray
        ++ Q.map Event.kind) := by
  obtain ⟨m1, m2, m3⟩ := tally_mallocs (fun e he => (hM e he).1)
  obtain ⟨f1, f2, f3⟩ := tally_frees (fun e he => (hF e he).1)
  have q1 : mallocs Q = [] := by
    unfold mallocs; rw [List.filter_eq_nil_iff]; intro e he; simp [(hQ e he).1]
  have q2 : frees Q = [] := by
    unfold frees; rw [List.filter_eq_nil_iff]; intro e he; simp [(hQ e he).2]
  have hc : infoEvent rt s :: (M ++ F ++ Q) = [infoEvent rt s] ++ (M ++ F ++ Q) := rfl
  refine ⟨?_, ?_, ?_, ?_⟩
  · rw [hc, mallocs_append, mallocs_append, mallocs_append, m1, f1, q1, (tally_info rt s).1]
    simp
  · rw [hc, frees_append, frees_append, frees_append, m2, f2, q2, (tally_info rt s).2.1]
    simp
  · rw [hc, snapshots_append, snapshots_append, snapshots_append, m3, f3,
      (tally_info rt s).2.2.1]
    simp
  · rw [List.map_cons, List.map_append, List.map_append,
      kinds_const (fun e he => (hM e he).2), kinds_const (fun e he => (hF e he).2)]
    rfl

/-! ## Byte accounting -/

theorem zip_sum_eq {A B : Type} (f : A → Int) (g : B → Int) :
    ∀ (M : List A) (F : List B), M.length = F.length →
      (∀ p ∈ List.zip M F, f p.1 = g p.2) → (M.map f).sum = (F.map g).sum
  | [], [], _, _ => rfl
  | [], _ :: _, h, _ => by simp at h
  | _ :: _, [], h, _ => by simp at h
  | a :: M, b :: F, h, hp => by
    have h1 : f a = g b := hp (a, b) (by simp)
    have h2 := zip_sum_eq f g M F (by simpa using h)
      (fun p hp2 => hp p (by simp only [List.zip_cons_cons]; exact List.mem_cons_of_mem _ hp2))
    simp [h1, h2]

/-- When every free gives back what the allocation at the same position took, a block
of allocations followed by as many frees leaves the available bytes unchanged. -/
theorem balanced_avail (rt : Runtime σ δ) {s s1 s2 : σ} {M F : List (Event σ δ)}
    (hM : Chained s M s1) (hF : Chained s1 F s2) (hlen : M.length = F.length)
    (hbal : ∀ p ∈ List.zip M F, bytesTaken rt p.1 = bytesGivenBack rt p.2) :
    rt.avail s = rt.avail s2 := by
  have h1 := chained_sum rt hM
  have h2 := chained_sum rt hF
  have h3 := zip_sum_eq (bytesTaken rt) (bytesGivenBack rt) M F hlen hbal
  have h4 : (M.map (bytesTaken rt)).sum = - (M.map (bytesGivenBack rt)).sum := by
    clear h1 h3 hbal hlen hM
    induction M with
    | nil => simp
    | cons e l ih =>
      simp only [List.map_cons, List.sum_cons, ih, bytesTaken, bytesGivenBack]
      ring
  rw [h4, h1, h2] at h3
  have : (rt.avail s : Int) = (rt.avail s2 : Int) := by linarith
  exact_mod_cast this

/-! ## `MallocArray_DiffSizes` as a whole -/

theorem diffSizes_failFast (rt : Runtime σ δ) (gpu : Int) (s : σ) :
    FailFast (MallocArray_DiffSizes rt gpu s) := by
  unfold MallocArray_DiffSizes
  refine failFast_bind (failFast_check_setDevice rt gpu s) (fun _ _ => ?_)
  simp only [sizeLoop]
  refine failFast_bind (sizeBody_failFast rt _ _) (fun _ _ => ?_)
  refine failFast_bind (sizeBody_failFast rt _ _) (fun _ _ => ?_)
  exact failFast_pure _ _

/-- The three ways a run of `MallocArray_DiffSizes` can go: device selection fails, the
small geometry fails, or the large geometry decides. -/
theorem diffSizes_cases (rt : Runtime σ δ) (gpu : Int) (s : σ) :
    ((setEvent rt gpu s).status ≠ hipSuccess ∧
      MallocArray_DiffSizes rt gpu s =
        ⟨.failed Failure.HIP_CHECK, (rt.hipSetDevice gpu s).2, [setEvent rt gpu s]⟩) ∨
    ((setEvent rt gpu s).status = hipSuccess ∧
      ∃ f, (sizeBody rt NUM_W (rt.hipSetDevice gpu s).2).result = .failed f ∧
        MallocArray_DiffSizes rt gpu s =
          ⟨.failed f, (sizeBody rt NUM_W (rt.hipSetDevice gpu s).2).state,
            setEvent rt gpu s :: (sizeBody rt NUM_W (rt.hipSetDevice gpu s).2).log⟩) ∨
    ((setEvent rt gpu s).status = hipSuccess ∧
      (sizeBody rt NUM_W (rt.hipSetDevice gpu s).2).result = .ok () ∧
      MallocArray_DiffSizes rt gpu s =
        ⟨(sizeBody rt BIGNUM_W (sizeBody rt NUM_W (rt.hipSetDevice gpu s).2).state).result,
          (sizeBody rt BIGNUM_W (sizeBody rt NUM_W (rt.hipSetDevice gpu s).2).state).state,
          setEvent rt gpu s :: ((sizeBody rt NUM_W (rt.hipSetDevice gpu s).2).log ++
            (sizeBody rt BIGNUM_W (sizeBody rt NUM_W (rt.hipSetDevice gpu s).2).state).log)⟩) := by
  by_cases h0 : (rt.hipSetDevice gpu s).1 = hipSuccess
  swap
  · left
    refine ⟨h0, ?_⟩
    have hbad : (HIP_CHECK (hipSetDevice rt gpu) s).result = .failed Failure.HIP_CHECK := by
      rw [check_setDevice_run]; simp [h0]
    unfold MallocArray_DiffSizes
    rw [bind_of_failed hbad]
    simp only [check_setDevice_run, setEvent]
  right
  have hok : (HIP_CHECK (hipSetDevice rt gpu) s).result = .ok () := by
    rw [check_setDevice_run]; simp [h0]
  have hst : (HIP_CHECK (hipSetDevice rt gpu) s).state = (rt.hipSetDevice gpu s).2 := by
    rw [check_setDevice_run]
  have hlog : (HIP_CHECK (hipSetDevice rt gpu) s).log = [setEvent rt gpu s] := by
    rw [check_setDevice_run]; rfl
  rcases hb1 : (sizeBody rt NUM_W (rt.hipSetDevice gpu s).2).result with u | f
  · right
    refine ⟨h0, rfl, ?_⟩
    unfold MallocArray_DiffSizes
    simp only [sizeLoop]
    rw [bind_of_ok hok, hst, hlog, bind_of_ok hb1]
    rcases hb2 : (sizeBody rt BIGNUM_W (sizeBody rt NUM_W (rt.hipSetDevice gpu s).2).state).result
      with u2 | f2
    · rw [bind_of_ok hb2]; simp [TestM.pure]
    · rw [bind_of_failed hb2]; simp
  · left
    refine ⟨h0, f, rfl, ?_⟩
    unfold MallocArray_DiffSizes
    simp only [sizeLoop]
    rw [bind_of_ok hok, hst, hlog, bind_of_failed hb1]
    simp

theorem sweepKind_small (rt : Runtime σ δ) :
    sweepKind rt NUM_W = Kind.mallocArray true (some (rt.hipCreateChannelDesc TestType.float))
      NUM_W NUM_H rt.hipArrayDefault := by
  simp [sweepKind]

theorem sweepKind_large (rt : Runtime σ δ) :
    sweepKind rt BIGNUM_W =
      Kind.mallocArray true (some (rt.hipCreateChannelDesc TestType.float))
        BIGNUM_W BIGNUM_H rt.hipArrayDefault := by
  simp [sweepKind, NUM_W, BIGNUM_W]

theorem zip_append_mem {A B : Type} {M X : List A} {F Y : List B} {p : A × B}
    (h : p ∈ List.zip M F) : p ∈ List.zip (M ++ X) (F ++ Y) := by
  induction M generalizing F with
  | nil => simp at h
  | cons a M ih =>
    cases F with
    | nil => simp at h
    | cons b F =>
      simp only [List.zip_cons_cons, List.mem_cons, List.cons_append] at h ⊢
      rcases h with h | h
      · exact Or.inl h
      · exact Or.inr (ih h)

theorem failure_none_result {r : Run σ δ Unit} (h : r.failure = none) : r.result = .ok () := by
  unfold Run.failure at h
  cases hr : r.result with
  | ok u => rfl
  | failed f => rw [hr] at h; simp [Result.failure] at h

theorem info_not_alloc_free (rt : Runtime σ δ) (s2 : σ) {Q : List (Event σ δ)}
    (hQ : Q = [] ∨ Q = [infoEvent rt s2]) :
    ∀ e ∈ Q, e.isMalloc = false ∧ e.isFree = false := by
  intro e he
  rcases hQ with h | h
  · rw [h] at he; cases he
  · rw [h] at he; rw [List.mem_singleton.mp he]; exact ⟨rfl, rfl⟩

theorem freedHandles_append (l1 l2 : List (Event σ δ)) :
    freedHandles (l1 ++ l2) = freedHandles l1 ++ freedHandles l2 := by
  unfold freedHandles; rw [List.filterMap_append]

theorem allocatedHandles_append (l1 l2 : List (Event σ δ)) :
    allocatedHandles (l1 ++ l2) = allocatedHandles l1 ++ allocatedHandles l2 := by
  unfold allocatedHandles; rw [List.filterMap_append]

theorem freedHandles_mallocs {M : List (Event σ δ)} (h : ∀ e ∈ M, e.isMalloc = true) :
    freedHandles M = [] := by
  induction M with
  | nil => rfl
  | cons e l ih =>
    have hc : e :: l = [e] ++ l := rfl
    rw [hc, freedHandles_append, (tally_malloc (h e (List.mem_cons_self _ _))).2.2,
      ih (fun x hx => h x (List.mem_cons_of_mem _ hx))]
    rfl

theorem allocatedHandles_frees {F : List (Event σ δ)} (h : ∀ e ∈ F, e.isFree = true) :
    allocatedHandles F = [] := by
  induction F with
  | nil => rfl
  | cons e l ih =>
    have hc : e :: l = [e] ++ l := rfl
    rw [hc, allocatedHandles_append, (tally_free (h e (List.mem_cons_self _ _))).2.2,
      ih (fun x hx => h x (List.mem_cons_of_mem _ hx))]
    rfl

/-- A run of the loop body that did not end in `HIP_CHECK` made the full sequence of
calls, and its verdict is the comparison of the two snapshots. -/
theorem sizeBody_complete (rt : Runtime σ δ) (size : Nat) (s : σ)
    (hnc : (sizeBody rt size s).failure ≠ some Failure.HIP_CHECK) :
    ∃ (M F : List (Event σ δ)) (s1 : σ),
      (sizeBody rt size s).log =
        infoEvent rt s :: (M ++ F ++ [infoEvent rt (sizeBody rt size s).state]) ∧
      mallocs (sizeBody rt size s).log = M ∧ frees (sizeBody rt size s).log = F ∧
      M.length = ARRAY_LOOP ∧ F.length = ARRAY_LOOP ∧
      Chained s M s1 ∧ Chained s1 F (sizeBody rt size s).state ∧
      (sizeBody rt size s).log.map Event.kind =
        Kind.memGetInfo :: (List.replicate ARRAY_LOOP (sweepKind rt size) ++
          List.replicate ARRAY_LOOP Kind.freeArray ++ [Kind.memGetInfo]) ∧
      snapshots (sizeBody rt size s).log = [rt.avail s, rt.avail (sizeBody rt size s).state] ∧
      freedHandles (sizeBody rt size s).log = allocatedHandles (sizeBody rt size s).log ∧
      ((sizeBody rt size s).failure = none ↔
        rt.avail s = rt.avail (sizeBody rt size s).state) ∧
      ((sizeBody rt size s).failure = none ∨
        (sizeBody rt size s).failure = some Failure.HIPASSERT) := by
  obtain ⟨M, F, Q, s1, s2, hlog, hM, hF, hcM, hcF, -, -, -, hQ, -, hfin⟩ :=
    sizeBody_shape rt size s
  obtain ⟨hQ2, hstate, hMlen, hFlen, hh, hiff, hor⟩ := hfin hnc
  subst hstate
  obtain ⟨t1, t2, t3, t4⟩ := tally_body rt s hM hF (info_not_alloc_free rt _ hQ)
  rw [← hlog] at t1 t2 t3 t4
  rw [hQ2] at hlog t3 t4
  refine ⟨M, F, s1, hlog, t1, t2, hMlen, hFlen, hcM, hcF, ?_, ?_, ?_, hiff, hor⟩
  · rw [t4, hMlen, hFlen]; rfl
  · rw [t3]; rfl
  · have hc : infoEvent rt s :: (M ++ F ++ [infoEvent rt (sizeBody rt size s).state])
        = [infoEvent rt s] ++ (M ++ F ++ [infoEvent rt (sizeBody rt size s).state]) := rfl
    rw [hlog, hc]
    simp only [freedHandles_append, allocatedHandles_append,
      freedHandles_mallocs (fun e he => (hM e he).1),
      allocatedHandles_frees (fun e he => (hF e he).1), hh]
    simp [freedHandles, allocatedHandles, infoEvent]

/-- C1: in every run of `MallocArray_DiffSizes` (any device index, any runtime, any start
state) in which every runtime call returns success and every free gives back exactly the
bytes its matching allocation took (the free at position `i` is the one passed the handle
of the allocation at position `i`), the function returns normally.  The run consists of
device selection and then, for the small geometry (100 arrays of 4x4 floats, default
flags) and for the large one (100 arrays of 100x100 floats, default flags): a snapshot,
100 allocations, 100 frees of exactly the allocated handles, and a snapshot equal to the
first. -/
theorem MallocArray_DiffSizes_balanced_passes (rt : Runtime σ δ) (gpu : Int) (s : σ)
    (hsucc : ∀ e ∈ (MallocArray_DiffSizes rt gpu s).log, e.status = hipSuccess)
    (hbal : ∀ p ∈ List.zip (mallocs (MallocArray_DiffSizes rt gpu s).log)
        (frees (MallocArray_DiffSizes rt gpu s).log),
      bytesTaken rt p.1 = bytesGivenBack rt p.2) :
    (MallocArray_DiffSizes rt gpu s).result = .ok () ∧
    (MallocArray_DiffSizes rt gpu s).log.map Event.kind =
      [Kind.setDevice gpu, Kind.memGetInfo]
        ++ List.replicate ARRAY_LOOP (Kind.mallocArray true
            (some (rt.hipCreateChannelDesc TestType.float)) NUM_W NUM_H rt.hipArrayDefault)
        ++ List.replicate ARRAY_LOOP Kind.freeArray
        ++ [Kind.memGetInfo, Kind.memGetInfo]
        ++ List.replicate ARRAY_LOOP (Kind.mallocArray true
            (some (rt.hipCreateChannelDesc TestType.float)) BIGNUM_W BIGNUM_H
            rt.hipArrayDefault)
        ++ List.replicate ARRAY_LOOP Kind.freeArray
        ++ [Kind.memGetInfo] ∧
    freedHandles (MallocArray_DiffSizes rt gpu s).log =
      allocatedHandles (MallocArray_DiffSizes rt gpu s).log ∧
    ∃ a b, snapshots (MallocArray_DiffSizes rt gpu s).log = [a, a, b, b] := by
  have hff := diffSizes_failFast rt gpu s
  have hnc : (MallocArray_DiffSizes rt gpu s).failure ≠ some Failure.HIP_CHECK := by
    intro h
    exact (hff.2.mp h) hsucc
  rcases diffSizes_cases rt gpu s with ⟨h0, hrun⟩ | ⟨-, f, hb1, hrun⟩ | ⟨-, hb1, hrun⟩
  · exact absurd (by rw [hrun]; rfl) hnc
  · -- the small geometry cannot fail
    exfalso
    have hf1 : (sizeBody rt NUM_W (rt.hipSetDevice gpu s).2).failure = some f := by
      unfold Run.failure; rw [hb1]; rfl
    have hfD : (MallocArray_DiffSizes rt gpu s).failure = some f := by rw [hrun]; rfl
    have hnc1 : (sizeBody rt NUM_W (rt.hipSetDevice gpu s).2).failure
        ≠ some Failure.HIP_CHECK := by rw [hf1, ← hfD]; exact hnc
    obtain ⟨M, F, s1, -, hm, hfr, hMlen, hFlen, hcM, hcF, -, -, -, hiff, -⟩ :=
      sizeBody_complete rt NUM_W _ hnc1
    have hmD : mallocs (MallocArray_DiffSizes rt gpu s).log = M := by
      rw [hrun]
      show mallocs ([setEvent rt gpu s] ++ _) = M
      rw [mallocs_append, hm]; rfl
    have hfD2 : frees (MallocArray_DiffSizes rt gpu s).log = F := by
      rw [hrun]
      show frees ([setEvent rt gpu s] ++ _) = F
      rw [frees_append, hfr]; rfl
    rw [hmD, hfD2] at hbal
    have := hiff.mpr (balanced_avail rt hcM hcF (by rw [hMlen, hFlen]) hbal)
    rw [hf1] at this
    cases this
  · have hf1 : (sizeBody rt NUM_W (rt.hipSetDevice gpu s).2).failure = none := by
      unfold Run.failure; rw [hb1]; rfl
    obtain ⟨M1, F1, s1, -, hm1, hfr1, hMlen1, hFlen1, -, -, hk1, hsn1, hh1, hiff1, -⟩ :=
      sizeBody_complete rt NUM_W _ (by rw [hf1]; simp)
    have hfD : (MallocArray_DiffSizes rt gpu s).failure =
        (sizeBody rt BIGNUM_W (sizeBody rt NUM_W (rt.hipSetDevice gpu s).2).state).failure := by
      rw [hrun]; rfl
    obtain ⟨M2, F2, s2, -, hm2, hfr2, hMlen2, hFlen2, hcM2, hcF2, hk2, hsn2, hh2, hiff2, -⟩ :=
      sizeBody_complete rt BIGNUM_W (sizeBody rt NUM_W (rt.hipSetDevice gpu s).2).state
        (by rw [← hfD]; exact hnc)
    have hlogD : (MallocArray_DiffSizes rt gpu s).log = [setEvent rt gpu s] ++
        ((sizeBody rt NUM_W (rt.hipSetDevice gpu s).2).log ++
          (sizeBody rt BIGNUM_W (sizeBody rt NUM_W (rt.hipSetDevice gpu s).2).state).log) := by
      rw [hrun]; rfl
    have hmD : mallocs (MallocArray_DiffSizes rt gpu s).log = M1 ++ M2 := by
      rw [hlogD, mallocs_append, mallocs_append, hm1, hm2]; rfl
    have hfD2 : frees (MallocArray_DiffSizes rt gpu s).log = F1 ++ F2 := by
      rw [hlogD, frees_append, frees_append, hfr1, hfr2]; rfl
    rw [hmD, hfD2, List.zip_append (by rw [hMlen1, hFlen1])] at hbal
    have hb2 := hiff2.mpr (balanced_avail rt hcM2 hcF2 (by rw [hMlen2, hFlen2])
      (fun p hp => hbal p (List.mem_append_right _ hp)))
    refine ⟨failure_none_result (by rw [hfD]; exact hb2), ?_, ?_, ?_⟩
    · rw [hlogD, List.map_append, List.map_append, hk1, hk2, sweepKind_small, sweepKind_large]
      simp [setEvent, Event.kind]
    · rw [hlogD]
      simp only [freedHandles_append, allocatedHandles_append, hh1, hh2]
      simp [freedHandles, allocatedHandles, setEvent]
    · refine ⟨rt.avail (rt.hipSetDevice gpu s).2, rt.avail (rt.hipSetDevice gpu s).2, ?_⟩
      rw [hlogD, snapshots_append, snapshots_append, hsn1, hsn2, ← hiff2.mp hb2,
        ← hiff1.mp hf1]
      rfl

/-- A run of `MallocArray_DiffSizes` in which no `HIP_CHECK` fired fails exactly when the
two snapshots of some geometry differ, and then through `HIPASSERT`. -/
theorem diffSizes_leak_verdict (rt : Runtime σ δ) (gpu : Int) (s : σ)
    (hnc : (MallocArray_DiffSizes rt gpu s).failure ≠ some Failure.HIP_CHECK) :
    ((MallocArray_DiffSizes rt gpu s).failure ≠ none ↔
      mismatch (snapshots (MallocArray_DiffSizes rt gpu s).log) = true) ∧
    ((MallocArray_DiffSizes rt gpu s).failure = none ∨
      (MallocArray_DiffSizes rt gpu s).failure = some Failure.HIPASSERT) := by
  rcases diffSizes_cases rt gpu s with ⟨h0, hrun⟩ | ⟨-, f, hb1, hrun⟩ | ⟨-, hb1, hrun⟩
  · exact absurd (by rw [hrun]; rfl) hnc
  · have hf1 : (sizeBody rt NUM_W (rt.hipSetDevice gpu s).2).failure = some f := by
      unfold Run.failure; rw [hb1]; rfl
    have hfD : (MallocArray_DiffSizes rt gpu s).failure = some f := by rw [hrun]; rfl
    obtain ⟨M, F, s1, -, -, -, -, -, -, -, -, hsn, -, hiff, hor⟩ :=
      sizeBody_complete rt NUM_W _ (by rw [hf1, ← hfD]; exact hnc)
    have hne : rt.avail (rt.hipSetDevice gpu s).2 ≠
        rt.avail (sizeBody rt NUM_W (rt.hipSetDevice gpu s).2).state := by
      intro h; have := hiff.mpr h; rw [hf1] at this; cases this
    have hsD : snapshots (MallocArray_DiffSizes rt gpu s).log =
        [rt.avail (rt.hipSetDevice gpu s).2,
          rt.avail (sizeBody rt NUM_W (rt.hipSetDevice gpu s).2).state] := by
      rw [hrun]
      show snapshots ([setEvent rt gpu s] ++ _) = _
      rw [snapshots_append, hsn]; rfl
    refine ⟨?_, ?_⟩
    · rw [hsD, hfD]
      simp [mismatch, hne]
    · rw [hfD, ← hf1]; exact hor
  · have hf1 : (sizeBody rt NUM_W (rt.hipSetDevice gpu s).2).failure = none := by
      unfold Run.failure; rw [hb1]; rfl
    obtain ⟨M1, F1, s1, -, -, -, -, -, -, -, -, hsn1, -, hiff1, -⟩ :=
      sizeBody_complete rt NUM_W _ (by rw [hf1]; simp)
    have hfD : (MallocArray_DiffSizes rt gpu s).failure =
        (sizeBody rt BIGNUM_W
          (sizeBody rt NUM_W (rt.hipSetDevice gpu s).2).state).failure := by
      rw [hrun]; rfl
    obtain ⟨M2, F2, s2, -, -, -, -, -, -, -, -, hsn2, -, hiff2, hor2⟩ :=
      sizeBody_complete rt BIGNUM_W (sizeBody rt NUM_W (rt.hipSetDevice gpu s).2).state
        (by rw [← hfD]; exact hnc)
    have hsD : snapshots (MallocArray_DiffSizes rt gpu s).log =
        [rt.avail (rt.hipSetDevice gpu s).2,
          rt.avail (sizeBody rt NUM_W (rt.hipSetDevice gpu s).2).state,
          rt.avail (sizeBody rt NUM_W (rt.hipSetDevice gpu s).2).state,
          rt.avail (sizeBody rt BIGNUM_W
            (sizeBody rt NUM_W (rt.hipSetDevice gpu s).2).state).state] := by
      rw [hrun]
      show snapshots ([setEvent rt gpu s] ++ (_ ++ _)) = _
      rw [snapshots_append, snapshots_append, hsn1, hsn2]; rfl
    refine ⟨?_, by rw [hfD]; exact hor2⟩
    rw [hsD, hfD, ← hiff1.mp hf1]
    simp only [mismatch, bne_self_eq_false, Bool.false_or, Bool.or_false, bne_iff_ne, ne_eq]
    rw [hiff1.mp hf1]
    exact not_congr hiff2

theorem diffSizes_hipCheck_iff (rt : Runtime σ δ) (gpu : Int) (s : σ) :
    (MallocArray_DiffSizes rt gpu s).failure = some Failure.HIP_CHECK ↔
      ∃ e ∈ (MallocArray_DiffSizes rt gpu s).log, e.status ≠ hipSuccess := by
  rw [(diffSizes_failFast rt gpu s).2]
  unfold StatusesOK
  push_neg
  rfl

/-! ## The calls of the sweep -/

/-- Calls of one iteration of the size loop: they are an initial part of the full
sequence (snapshot, `ARRAY_LOOP` allocations, `ARRAY_LOOP` frees, snapshot), and all of it
unless a `HIP_CHECK` stopped the iteration. -/
theorem sizeBody_calls (rt : Runtime σ δ) (size : Nat) (s : σ) :
    (∃ tail, (sizeBody rt size s).log.map Event.kind ++ tail =
      Kind.memGetInfo :: (List.replicate ARRAY_LOOP (sweepKind rt size)
        ++ List.replicate ARRAY_LOOP Kind.freeArray ++ [Kind.memGetInfo])) ∧
    ((sizeBody rt size s).failure ≠ some Failure.HIP_CHECK →
      (sizeBody rt size s).log.map Event.kind =
        Kind.memGetInfo :: (List.replicate ARRAY_LOOP (sweepKind rt size)
          ++ List.replicate ARRAY_LOOP Kind.freeArray ++ [Kind.memGetInfo])) := by
  obtain ⟨M, F, Q, s1, s2, hlog, hM, hF, -, -, hMl, hFl, hFM, hQ, hQl, hdone⟩ :=
    sizeBody_shape rt size s
  have hkM := kinds_const (fun e he => (hM e he).2)
  have hkF := kinds_const (fun e he => (hF e he).2)
  have hkinds : (sizeBody rt size s).log.map Event.kind =
      Kind.memGetInfo :: (List.replicate M.length (sweepKind rt size)
        ++ List.replicate F.length Kind.freeArray ++ Q.map Event.kind) := by
    rw [hlog, List.map_cons, List.map_append, List.map_append, hkM, hkF]
    rfl
  have hfull : Q = [infoEvent rt s2] → (sizeBody rt size s).log.map Event.kind =
      Kind.memGetInfo :: (List.replicate ARRAY_LOOP (sweepKind rt size)
        ++ List.replicate ARRAY_LOOP Kind.freeArray ++ [Kind.memGetInfo]) := by
    intro hq
    obtain ⟨h1, h2⟩ := hQl (by rw [hq]; simp)
    rw [hkinds, h1, h2, hq]
    rfl
  have hrep : ∀ (n : Nat) (K : Kind δ) (X : List (Kind δ)), n ≤ ARRAY_LOOP →
      List.replicate n K ++ (List.replicate (ARRAY_LOOP - n) K ++ X)
        = List.replicate ARRAY_LOOP K ++ X := by
    intro n K X hn
    rw [← List.append_assoc, List.append_replicate_replicate, Nat.add_sub_cancel' hn]
  constructor
  · rcases hQ with hq | hq
    · by_cases hFn : F = []
      · refine ⟨List.replicate (ARRAY_LOOP - M.length) (sweepKind rt size)
          ++ List.replicate ARRAY_LOOP Kind.freeArray ++ [Kind.memGetInfo], ?_⟩
        rw [hkinds, hq, hFn]
        simp only [List.length_nil, List.replicate_zero, List.map_nil, List.append_nil,
          List.cons_append, List.cons.injEq, true_and]
        simp only [List.append_assoc]
        rw [hrep _ _ _ hMl]
      · refine ⟨List.replicate (ARRAY_LOOP - F.length) Kind.freeArray ++ [Kind.memGetInfo], ?_⟩
        rw [hkinds, hq, hFM hFn]
        simp only [List.map_nil, List.append_nil, List.cons_append, List.cons.injEq, true_and]
        simp only [List.append_assoc]
        rw [hrep _ _ _ hFl]
    · exact ⟨[], by rw [List.append_nil]; exact hfull hq⟩
  · intro hnc
    exact hfull (hdone hnc).1

theorem sweepCalls_split (rt : Runtime σ δ) (gpu : Int) :
    sweepCalls rt gpu =
      Kind.setDevice gpu ::
        ((Kind.memGetInfo :: (List.replicate ARRAY_LOOP (sweepKind rt NUM_W)
            ++ List.replicate ARRAY_LOOP Kind.freeArray ++ [Kind.memGetInfo]))
          ++ (Kind.memGetInfo :: (List.replicate ARRAY_LOOP (sweepKind rt BIGNUM_W)
            ++ List.replicate ARRAY_LOOP Kind.freeArray ++ [Kind.memGetInfo]))) := by
  rw [sweepKind_small, sweepKind_large]
  simp [sweepCalls, List.append_assoc]

theorem smallSweepCalls_split (rt : Runtime σ δ) (gpu : Int) :
    smallSweepCalls rt gpu =
      Kind.setDevice gpu ::
        (Kind.memGetInfo :: (List.replicate ARRAY_LOOP (sweepKind rt NUM_W)
            ++ List.replicate ARRAY_LOOP Kind.freeArray ++ [Kind.memGetInfo])) := by
  rw [sweepKind_small]
  simp [smallSweepCalls, List.append_assoc]

/-- Every run of `MallocArray_DiffSizes` makes the calls of the sweep, in order, up to
the point where it stops. -/
theorem diffSizes_calls (rt : Runtime σ δ) (gpu : Int) (s : σ) :
    SweepCallsMade rt gpu (MallocArray_DiffSizes rt gpu s) := by
  have hff := diffSizes_failFast rt gpu s
  refine ⟨?_, hff.1, ?_⟩
  · rcases diffSizes_cases rt gpu s with ⟨-, hrun⟩ | ⟨-, f, hb1, hrun⟩ | ⟨-, hb1, hrun⟩
    · rw [hrun, sweepCalls_split]
      exact ⟨_, rfl⟩
    · obtain ⟨⟨t1, ht1⟩, -⟩ := sizeBody_calls rt NUM_W (rt.hipSetDevice gpu s).2
      rw [hrun, sweepCalls_split]
      refine ⟨t1 ++ (Kind.memGetInfo :: (List.replicate ARRAY_LOOP (sweepKind rt BIGNUM_W)
            ++ List.replicate ARRAY_LOOP Kind.freeArray ++ [Kind.memGetInfo])), ?_⟩
      show (setEvent rt gpu s).kind :: _ ++ _ = _
      rw [List.cons_append, ← List.append_assoc, ht1]
      rfl
    · have hf1 : (sizeBody rt NUM_W (rt.hipSetDevice gpu s).2).failure = none := by
        unfold Run.failure; rw [hb1]; rfl
      obtain ⟨-, hk1⟩ := sizeBody_calls rt NUM_W (rt.hipSetDevice gpu s).2
      obtain ⟨⟨t2, ht2⟩, -⟩ := sizeBody_calls rt BIGNUM_W
        (sizeBody rt NUM_W (rt.hipSetDevice gpu s).2).state
      rw [hrun, sweepCalls_split]
      refine ⟨t2, ?_⟩
      show ((setEvent rt gpu s) :: (_ ++ _)).map Event.kind ++ _ = _
      rw [List.map_cons, List.map_append, hk1 (by rw [hf1]; simp), List.cons_append,
        List.append_assoc, ht2]
      rfl
  · by_cases hc : (MallocArray_DiffSizes rt gpu s).failure = some Failure.HIP_CHECK
    · exact Or.inl ((diffSizes_hipCheck_iff rt gpu s).mp hc)
    · right
      rcases diffSizes_cases rt gpu s with ⟨-, hrun⟩ | ⟨-, f, hb1, hrun⟩ | ⟨-, hb1, hrun⟩
      · exact absurd (by rw [hrun]; rfl) hc
      · right
        have hf1 : (sizeBody rt NUM_W (rt.hipSetDevice gpu s).2).failure = some f := by
          unfold Run.failure; rw [hb1]; rfl
        have hfD : (MallocArray_DiffSizes rt gpu s).failure = some f := by rw [hrun]; rfl
        obtain ⟨-, hk1⟩ := sizeBody_calls rt NUM_W (rt.hipSetDevice gpu s).2
        refine ⟨?_, ((diffSizes_leak_verdict rt gpu s hc).1).mp (by rw [hfD]; simp)⟩
        rw [hrun, smallSweepCalls_split]
        show ((setEvent rt gpu s) :: _).map Event.kind = _
        rw [List.map_cons, hk1 (by rw [hf1, ← hfD]; exact hc)]
        rfl
      · left
        have hf1 : (sizeBody rt NUM_W (rt.hipSetDevice gpu s).2).failure = none := by
          unfold Run.failure; rw [hb1]; rfl
        have hfD : (MallocArray_DiffSizes rt gpu s).failure =
            (sizeBody rt BIGNUM_W
              (sizeBody rt NUM_W (rt.hipSetDevice gpu s).2).state).failure := by
          rw [hrun]; rfl
        obtain ⟨-, hk1⟩ := sizeBody_calls rt NUM_W (rt.hipSetDevice gpu s).2
        obtain ⟨-, hk2⟩ := sizeBody_calls rt BIGNUM_W
          (sizeBody rt NUM_W (rt.hipSetDevice gpu s).2).state
        rw [hrun, sweepCalls_split]
        show ((setEvent rt gpu s) :: (_ ++ _)).map Event.kind = _
        rw [List.map_cons, List.map_append, hk1 (by rw [hf1]; simp),
          hk2 (by rw [← hfD]; exact hc)]
        rfl

/-- C2: `MallocArray_DiffSizes` signals failure if and only if one of its runtime calls
returned a non-success status or, for one of the two geometries, the snapshot taken after
the frees differs from the one taken before the allocations; in every other run it returns
normally.  The calls are those of the sweep, made in order and none skipped: device
selection, then for the small and for the large geometry a snapshot, the allocations, the
frees and a snapshot; the run stops short of them only at a call that returned
non-success or at the differing second snapshot of the small geometry, and a run that
returns normally has made all of them.  The logged calls are the runtime's own answers, in
sequence from the start state, and the test case `Unit_hipMallocArray_DiffSizes` is this
function on device 0. -/
theorem MallocArray_DiffSizes_fails_iff (rt : Runtime σ δ) (gpu : Int) (s : σ) :
    ((MallocArray_DiffSizes rt gpu s).failure ≠ none ↔
      ((∃ e ∈ (MallocArray_DiffSizes rt gpu s).log, e.status ≠ hipSuccess) ∨
        mismatch (snapshots (MallocArray_DiffSizes rt gpu s).log) = true)) ∧
    (¬ ((∃ e ∈ (MallocArray_DiffSizes rt gpu s).log, e.status ≠ hipSuccess) ∨
        mismatch (snapshots (MallocArray_DiffSizes rt gpu s).log) = true) →
      (MallocArray_DiffSizes rt gpu s).result = .ok ()) ∧
    Faithful rt s (MallocArray_DiffSizes rt gpu s) ∧
    Unit_hipMallocArray_DiffSizes rt s = MallocArray_DiffSizes rt 0 s ∧
    SweepCallsMade rt gpu (MallocArray_DiffSizes rt gpu s) ∧
    ((MallocArray_DiffSizes rt gpu s).failure = none →
      (MallocArray_DiffSizes rt gpu s).log.map Event.kind = sweepCalls rt gpu) := by
  have main : (MallocArray_DiffSizes rt gpu s).failure ≠ none ↔
      ((∃ e ∈ (MallocArray_DiffSizes rt gpu s).log, e.status ≠ hipSuccess) ∨
        mismatch (snapshots (MallocArray_DiffSizes rt gpu s).log) = true) := by
    rw [← diffSizes_hipCheck_iff]
    by_cases hc : (MallocArray_DiffSizes rt gpu s).failure = some Failure.HIP_CHECK
    · simp [hc]
    · rw [(diffSizes_leak_verdict rt gpu s hc).1]; simp [hc]
  have hcalls := diffSizes_calls rt gpu s
  refine ⟨main, fun h => failure_none_result ?_, diffSizes_faithful rt gpu s, rfl, hcalls, ?_⟩
  · by_contra hne
    exact h (main.mp hne)
  · intro hnone
    rcases hcalls.2.2 with hbad | hfull | ⟨-, hmis⟩
    · exact absurd hnone (main.mpr (Or.inl hbad))
    · exact hfull
    · exact absurd hnone (main.mpr (Or.inr hmis))

/-! ## Fail-fast behaviour on a failing allocation -/

theorem statusesOK_split {A B : List (Event σ δ)} (hB : B ≠ [])
    (h : StatusesOK (A ++ B).dropLast) : StatusesOK A ∧ StatusesOK B.dropLast := by
  rw [List.dropLast_append_of_ne_nil _ hB] at h
  exact statusesOK_append.mp h

theorem bad_mem_right {A B : List (Event σ δ)} {e : Event σ δ} (hA : StatusesOK A)
    (he : e ∈ A ++ B) (hbad : e.status ≠ hipSuccess) : e ∈ B := by
  rcases List.mem_append.mp he with h | h
  · exact absurd (hA e h) hbad
  · exact h

/-- In a log where only the last call can fail, a failing call found at position `k` of a
filtered sublist is the last call of the log and the last of the sublist. -/
theorem failing_is_last {L : List (Event σ δ)} {p : Event σ δ → Bool} {k : Nat}
    {e : Event σ δ} (hdl : StatusesOK L.dropLast) (hk : (L.filter p)[k]? = some e)
    (hbad : e.status ≠ hipSuccess) :
    L.getLast? = some e ∧ (L.filter p).length = k + 1 ∧ p e = true := by
  have hmem : e ∈ L.filter p := List.getElem?_mem hk
  have hpe : p e = true := (List.mem_filter.mp hmem).2
  have hne : L ≠ [] := by
    intro h; rw [h] at hmem; simp at hmem
  obtain ⟨init, x, hL⟩ : ∃ init x, L = init ++ [x] :=
    ⟨L.dropLast, L.getLast hne, (List.dropLast_append_getLast hne).symm⟩
  subst hL
  rw [List.dropLast_concat] at hdl
  rw [List.filter_append] at hk hmem ⊢
  have hinit : ∀ y ∈ init.filter p, y.status = hipSuccess :=
    fun y hy => hdl y (List.mem_filter.mp hy).1
  have hge : (init.filter p).length ≤ k := by
    by_contra hlt
    push_neg at hlt
    rw [List.getElem?_append_left hlt] at hk
    exact hbad (hinit e (List.getElem?_mem hk))
  rw [List.getElem?_append_right hge] at hk
  have hx : e ∈ List.filter p [x] := List.getElem?_mem hk
  have hex : e = x := by
    have := (List.mem_filter.mp hx).1
    simpa using this
  subst hex
  have hfx : List.filter p [e] = [e] := by simp [hpe]
  rw [hfx] at hk ⊢
  have hidx : k - (init.filter p).length = 0 := by
    by_contra hnz
    have : (List.length [e]) ≤ k - (init.filter p).length := by
      simp only [List.length_singleton]; omega
    rw [List.getElem?_eq_none this] at hk
    cases hk
  refine ⟨by simp, ?_, hpe⟩
  simp only [List.length_append, List.length_singleton]
  omega

theorem isMallocOf_kind {e : Event σ δ} {w h : Nat} (hp : e.kind.isMallocOf w h = true) :
    e.isMalloc = true ∧ e.isFree = false := by
  rcases e with ⟨c, st, p, q⟩
  cases c <;> simp_all [Event.kind, Kind.isMallocOf, Event.isMalloc, Event.isFree]

/-- When a run of the loop body contains a failing allocation, its log is the first
snapshot followed by allocations only. -/
theorem sizeBody_bad_alloc (rt : Runtime σ δ) (size : Nat) (s : σ) {e : Event σ δ}
    (he : e ∈ (sizeBody rt size s).log) (hbad : e.status ≠ hipSuccess)
    (hm : e.isMalloc = true) :
    ∃ M, (sizeBody rt size s).log = infoEvent rt s :: M ∧
      (∀ x ∈ M, x.isMalloc = true ∧ x.kind = sweepKind rt size) ∧
      M.length ≤ ARRAY_LOOP := by
  obtain ⟨M, F, Q, s1, s2, hlog, hM, hF, -, -, hMle, -, -, hQ, -, -⟩ :=
    sizeBody_shape rt size s
  have hdl := (sizeBody_failFast rt size s).1
  have hfree : e.isFree = false := by
    rcases e with ⟨c, st, p, q⟩
    cases c <;> simp_all [Event.isMalloc, Event.isFree]
  rw [hlog] at he hdl
  have hQnil : Q = [] := by
    rcases hQ with h | h
    · exact h
    · exfalso
      have hc : infoEvent rt s :: (M ++ F ++ Q) = (infoEvent rt s :: (M ++ F)) ++ Q := by simp
      rw [hc] at he hdl
      have hne : Q ≠ [] := by rw [h]; simp
      have := bad_mem_right (statusesOK_split hne hdl).1 he hbad
      rw [h, List.mem_singleton] at this
      rw [this] at hm
      cases hm
  subst hQnil
  rw [List.append_nil] at he hdl hlog
  have hFnil : F = [] := by
    by_contra hne
    have hc : infoEvent rt s :: (M ++ F) = (infoEvent rt s :: M) ++ F := by simp
    rw [hc] at he hdl
    have := bad_mem_right (statusesOK_split hne hdl).1 he hbad
    rw [(hF e this).1] at hfree
    cases hfree
  subst hFnil
  rw [List.append_nil] at hlog
  exact ⟨M, hlog, hM, hMle⟩

theorem filter_mallocOf_info_cons (rt : Runtime σ δ) (s : σ) (w h : Nat)
    (M : List (Event σ δ)) :
    mallocsOf w h (infoEvent rt s :: M) = mallocsOf w h M := by
  unfold mallocsOf
  rw [List.filter_cons_of_neg]
  simp [infoEvent, Event.kind, Kind.isMallocOf]

theorem filter_mallocOf_set_cons (rt : Runtime σ δ) (gpu : Int) (s : σ) (w h : Nat)
    (M : List (Event σ δ)) :
    mallocsOf w h (setEvent rt gpu s :: M) = mallocsOf w h M := by
  unfold mallocsOf
  rw [List.filter_cons_of_neg]
  simp [setEvent, Event.kind, Kind.isMallocOf]

theorem mallocsOf_all {M : List (Event σ δ)} {K : Kind δ} {w h : Nat}
    (hM : ∀ x ∈ M, x.kind = K) (hK : K.isMallocOf w h = true) : mallocsOf w h M = M := by
  unfold mallocsOf
  rw [List.filter_eq_self]
  intro x hx
  rw [hM x hx]; exact hK

theorem mallocsOf_none {M : List (Event σ δ)} {w h : Nat}
    (hM : ∀ x ∈ M, x.kind.isMallocOf w h = false) : mallocsOf w h M = [] := by
  unfold mallocsOf
  rw [List.filter_eq_nil_iff]
  intro x hx
  simp [hM x hx]

theorem mallocsOf_append (w h : Nat) (l1 l2 : List (Event σ δ)) :
    mallocsOf w h (l1 ++ l2) = mallocsOf w h l1 ++ mallocsOf w h l2 := by
  unfold mallocsOf; rw [List.filter_append]

theorem sweepKind_isMallocOf (rt : Runtime σ δ) :
    (sweepKind rt NUM_W).isMallocOf NUM_W NUM_H = true ∧
    (sweepKind rt NUM_W).isMallocOf BIGNUM_W BIGNUM_H = false ∧
    (sweepKind rt BIGNUM_W).isMallocOf NUM_W NUM_H = false ∧
    (sweepKind rt BIGNUM_W).isMallocOf BIGNUM_W BIGNUM_H = true := by
  rw [sweepKind_small, sweepKind_large]
  simp [Kind.isMallocOf, NUM_W, NUM_H, BIGNUM_W, BIGNUM_H]

/-- C10: `MallocArray_DiffSizes` is fail-fast without clean-up.  For a geometry
(`w`, `h`) of the sweep and `k ≥ 1`, if the `k`-th allocation of that geometry returned
a non-success status (the `k - 1` before it necessarily succeeded), then the run ended in
`HIP_CHECK`, that allocation is the last runtime call of the run, and the calls made are
exactly: device selection, for the large geometry the complete small sweep (snapshot, 100
allocations, 100 frees, snapshot), then the first snapshot of the geometry and its `k`
allocations.  So there is no free of any of the `k - 1` handles obtained, no second
snapshot of the geometry, and the next geometry is not started. -/
theorem MallocArray_DiffSizes_fail_fast (rt : Runtime σ δ) (gpu : Int) (s : σ)
    (w h k : Nat) (e : Event σ δ)
    (hg : (w = NUM_W ∧ h = NUM_H) ∨ (w = BIGNUM_W ∧ h = BIGNUM_H))
    (hk1 : 1 ≤ k)
    (hkth : (mallocsOf w h (MallocArray_DiffSizes rt gpu s).log)[k - 1]? = some e)
    (hbad : e.status ≠ hipSuccess) :
    (MallocArray_DiffSizes rt gpu s).failure = some Failure.HIP_CHECK ∧
    (MallocArray_DiffSizes rt gpu s).log.getLast? = some e ∧
    (∀ x ∈ (MallocArray_DiffSizes rt gpu s).log.dropLast, x.status = hipSuccess) ∧
    k ≤ ARRAY_LOOP ∧
    (MallocArray_DiffSizes rt gpu s).log.map Event.kind =
      (if w = NUM_W then [Kind.setDevice gpu, Kind.memGetInfo]
        else
          [Kind.setDevice gpu, Kind.memGetInfo]
            ++ List.replicate ARRAY_LOOP (Kind.mallocArray true
                (some (rt.hipCreateChannelDesc TestType.float)) NUM_W NUM_H rt.hipArrayDefault)
            ++ List.replicate ARRAY_LOOP Kind.freeArray
            ++ [Kind.memGetInfo, Kind.memGetInfo])
      ++ List.replicate k (Kind.mallocArray true
          (some (rt.hipCreateChannelDesc TestType.float)) w h rt.hipArrayDefault) := by
  have hff := diffSizes_failFast rt gpu s
  obtain ⟨hlast, hlen, hpe⟩ := failing_is_last hff.1 hkth hbad
  have hlen2 : (mallocsOf w h (MallocArray_DiffSizes rt gpu s).log).length = k := by
    unfold mallocsOf; rw [hlen]; omega
  have he : e ∈ (MallocArray_DiffSizes rt gpu s).log :=
    (List.mem_filter.mp (List.getElem?_mem hkth)).1
  have hfail : (MallocArray_DiffSizes rt gpu s).failure = some Failure.HIP_CHECK :=
    hff.2.mpr (fun hok => hbad (hok e he))
  obtain ⟨hem, -⟩ := isMallocOf_kind hpe
  obtain ⟨kss, ksl, kls, kll⟩ := sweepKind_isMallocOf rt
  refine ⟨hfail, hlast, hff.1, ?_⟩
  rcases diffSizes_cases rt gpu s with ⟨h0, hrun⟩ | ⟨h0, f, hb1, hrun⟩ | ⟨h0, hb1, hrun⟩
  · -- device selection failed: there is no allocation at all
    exfalso
    rw [hrun] at hlen2
    simp only [filter_mallocOf_set_cons] at hlen2
    simp [mallocsOf] at hlen2
    omega
  · -- the failing allocation belongs to the small geometry
    have hlogD : (MallocArray_DiffSizes rt gpu s).log =
        [setEvent rt gpu s] ++ (sizeBody rt NUM_W (rt.hipSetDevice gpu s).2).log := by
      rw [hrun]; rfl
    rw [hlogD] at he
    have he1 := bad_mem_right (A := [setEvent rt gpu s])
      (by intro x hx; rw [List.mem_singleton.mp hx]; exact h0) he hbad
    obtain ⟨M, hL1, hM, hMle⟩ := sizeBody_bad_alloc rt NUM_W _ he1 hbad hem
    rw [hlogD, hL1] at hlen2 ⊢
    simp only [List.singleton_append, filter_mallocOf_set_cons, filter_mallocOf_info_cons]
      at hlen2
    rcases hg with ⟨hw, hh⟩ | ⟨hw, hh⟩
    · subst hw; subst hh
      rw [mallocsOf_all (fun x hx => (hM x hx).2) kss] at hlen2
      refine ⟨by omega, ?_⟩
      simp only [List.singleton_append, List.map_cons, if_true,
        kinds_const (fun x hx => (hM x hx).2), hlen2, sweepKind_small]
      rfl
    · exfalso
      subst hw; subst hh
      rw [mallocsOf_none (fun x hx => by rw [(hM x hx).2]; exact ksl)] at hlen2
      simp at hlen2
      omega
  · -- the small geometry completed: the failing allocation belongs to the large one
    have hf1 : (sizeBody rt NUM_W (rt.hipSetDevice gpu s).2).failure = none := by
      unfold Run.failure; rw [hb1]; rfl
    have hok1 : StatusesOK (sizeBody rt NUM_W (rt.hipSetDevice gpu s).2).log := by
      by_contra hc
      have := (sizeBody_failFast rt NUM_W (rt.hipSetDevice gpu s).2).2.mpr hc
      rw [hf1] at this
      cases this
    obtain ⟨M1, F1, s1, hL1, -, -, -, -, -, -, hk1', -, -, -, -⟩ :=
      sizeBody_complete rt NUM_W _ (by rw [hf1]; simp)
    have hlogD : (MallocArray_DiffSizes rt gpu s).log =
        ([setEvent rt gpu s] ++ (sizeBody rt NUM_W (rt.hipSetDevice gpu s).2).log) ++
          (sizeBody rt BIGNUM_W (sizeBody rt NUM_W (rt.hipSetDevice gpu s).2).state).log := by
      rw [hrun]; simp
    rw [hlogD] at he
    have hfront : StatusesOK ([setEvent rt gpu s] ++
        (sizeBody rt NUM_W (rt.hipSetDevice gpu s).2).log) := by
      rw [statusesOK_append]
      exact ⟨by intro x hx; rw [List.mem_singleton.mp hx]; exact h0, hok1⟩
    have he2 := bad_mem_right hfront he hbad
    obtain ⟨M2, hL2, hM2, hMle⟩ := sizeBody_bad_alloc rt BIGNUM_W _ he2 hbad hem
    have hekind : e.kind = sweepKind rt BIGNUM_W := by
      rw [hL2] at he2
      rcases List.mem_cons.mp he2 with hx | hx
      · rw [hx] at hem; cases hem
      · exact (hM2 e hx).2
    rcases hg with ⟨hw, hh⟩ | ⟨hw, hh⟩
    · exfalso
      subst hw; subst hh
      rw [hekind, kls] at hpe
      cases hpe
    · subst hw; subst hh
      have hnone1 : mallocsOf BIGNUM_W BIGNUM_H
          (sizeBody rt NUM_W (rt.hipSetDevice gpu s).2).log = [] := by
        apply mallocsOf_none
        intro x hx
        have hxk : x.kind ∈ (sizeBody rt NUM_W (rt.hipSetDevice gpu s).2).log.map Event.kind :=
          List.mem_map_of_mem _ hx
        rw [hk1'] at hxk
        simp only [List.mem_cons, List.mem_append, List.mem_replicate, List.mem_singleton,
          List.not_mem_nil, or_false] at hxk
        rcases hxk with hx1 | ⟨⟨-, hx1⟩ | ⟨-, hx1⟩⟩ | hx1
        · rw [hx1]; rfl
        · rw [hx1]; exact ksl
        · rw [hx1]; rfl
        · rw [hx1]; rfl
      rw [hlogD, mallocsOf_append, mallocsOf_append, hnone1, hL2] at hlen2
      simp only [filter_mallocOf_info_cons] at hlen2
      rw [mallocsOf_all (fun x hx => (hM2 x hx).2) kll] at hlen2
      have hsetnil : mallocsOf BIGNUM_W BIGNUM_H [setEvent rt gpu s] = ([] : List (Event σ δ)) := rfl
      rw [hsetnil] at hlen2
      simp only [List.nil_append, List.length_cons] at hlen2
      refine ⟨by omega, ?_⟩
      have hne : ¬ (BIGNUM_W = NUM_W) := by decide
      rw [hlogD, List.map_append, List.map_append, hk1', hL2]
      simp only [List.map_cons, List.map_nil, kinds_const (fun x hx => (hM2 x hx).2), hlen2,
        sweepKind_small, sweepKind_large, if_neg hne]
      simp [setEvent, infoEvent, Event.kind]

/-! ## Sections of the negative test and the basic test -/

theorem hipMallocArray_run (rt : Runtime σ δ) (a : Bool) (d : Option δ) (w h f : Nat) (s : σ) :
    hipMallocArray rt a d w h f s =
      ⟨.ok ((rt.hipMallocArray a d w h f s).1, (rt.hipMallocArray a d w h f s).2.1),
        (rt.hipMallocArray a d w h f s).2.2, [mallocEvent rt a d w h f s]⟩ := rfl

/-- A section that expects the allocation to fail. -/
theorem expectFailure_run (rt : Runtime σ δ) (a : Bool) (d : Option δ) (w h f : Nat) (s : σ) :
    TestM.bind (hipMallocArray rt a d w h f) (fun r => REQUIRE (r.1 != hipSuccess)) s =
      ⟨if (mallocEvent rt a d w h f s).status = hipSuccess then .failed Failure.REQUIRE
          else .ok (),
        (mallocEvent rt a d w h f s).post, [mallocEvent rt a d w h f s]⟩ := by
  rw [bind_of_ok (a := ((rt.hipMallocArray a d w h f s).1, (rt.hipMallocArray a d w h f s).2.1))
    (by rw [hipMallocArray_run])]
  simp only [hipMallocArray_run, REQUIRE, mallocEvent]
  by_cases hs : (rt.hipMallocArray a d w h f s).1 = hipSuccess <;> simp [hs]

/-- A section that expects the allocation to succeed. -/
theorem expectSuccess_run (rt : Runtime σ δ) (a : Bool) (d : Option δ) (w h f : Nat) (s : σ) :
    TestM.bind (hipMallocArray rt a d w h f) (fun r => REQUIRE (r.1 == hipSuccess)) s =
      ⟨if (mallocEvent rt a d w h f s).status = hipSuccess then .ok ()
          else .failed Failure.REQUIRE,
        (mallocEvent rt a d w h f s).post, [mallocEvent rt a d w h f s]⟩ := by
  rw [bind_of_ok (a := ((rt.hipMallocArray a d w h f s).1, (rt.hipMallocArray a d w h f s).2.1))
    (by rw [hipMallocArray_run])]
  simp only [hipMallocArray_run, REQUIRE, mallocEvent]
  by_cases hs : (rt.hipMallocArray a d w h f s).1 = hipSuccess <;> simp [hs]

theorem mallocEvent_facts (rt : Runtime σ δ) (a : Bool) (d : Option δ) (w h f : Nat) (s : σ) :
    (mallocEvent rt a d w h f s).kind = Kind.mallocArray a d w h f ∧
    (mallocEvent rt a d w h f s).pre = s ∧ (mallocEvent rt a d w h f s).Sound rt :=
  ⟨rfl, rfl, rfl, rfl, rfl⟩

/-- The four runs of the negative test in a build for a backend other than NVIDIA. -/
theorem runNegative_false (rt : Runtime σ δ) (s : σ) :
    ∃ e1 e2 e3 e4 : Event σ δ,
      runNegative false rt s =
        [⟨if e1.status = hipSuccess then .failed Failure.REQUIRE else .ok (), e1.post, [e1]⟩,
         ⟨if e2.status = hipSuccess then .ok () else .failed Failure.REQUIRE, e2.post, [e2]⟩,
         ⟨if e3.status = hipSuccess then .failed Failure.REQUIRE else .ok (), e3.post, [e3]⟩,
         ⟨if e4.status = hipSuccess then .failed Failure.REQUIRE else .ok (), e4.post, [e4]⟩] ∧
      e1.kind = Kind.mallocArray true (some (rt.hipCreateChannelDesc TestType.float)) 0 NUM_H
        rt.hipArrayDefault ∧
      e2.kind = Kind.mallocArray true (some (rt.hipCreateChannelDesc TestType.float)) NUM_W 0
        rt.hipArrayDefault ∧
      e3.kind = Kind.mallocArray true (some (rt.hipCreateChannelDesc TestType.float)) NUM_W
        NUM_H 100 ∧
      e4.kind = Kind.mallocArray true (some (rt.hipCreateChannelDesc TestType.float)) INT_MAX
        INT_MAX rt.hipArrayDefault ∧
      Chained s [e1, e2, e3, e4] e4.post ∧
      e1.Sound rt ∧ e2.Sound rt ∧ e3.Sound rt ∧ e4.Sound rt := by
  refine ⟨mallocEvent rt true (some (rt.hipCreateChannelDesc TestType.float)) 0 NUM_H
      rt.hipArrayDefault s, mallocEvent rt true _ NUM_W 0 rt.hipArrayDefault _,
    mallocEvent rt true _ NUM_W NUM_H 100 _,
    mallocEvent rt true _ INT_MAX INT_MAX rt.hipArrayDefault _, ?_,
    (mallocEvent_facts ..).1, (mallocEvent_facts ..).1, (mallocEvent_facts ..).1,
    (mallocEvent_facts ..).1, ⟨rfl, rfl, rfl, rfl, rfl⟩,
    (mallocEvent_facts ..).2.2, (mallocEvent_facts ..).2.2, (mallocEvent_facts ..).2.2,
    (mallocEvent_facts ..).2.2⟩
  simp only [runNegative, Unit_hipMallocArray_Negative, Bool.false_eq_true, if_false,
    List.nil_append, List.map_cons, List.map_nil, runSections, expectFailure_run,
    expectSuccess_run]
  rfl

/-- The six runs of the negative test in a build for the NVIDIA backend. -/
theorem runNegative_true (rt : Runtime σ δ) (s : σ) :
    ∃ n1 n2 : Event σ δ,
      runNegative true rt s =
        ⟨if n1.status = hipSuccess then .failed Failure.REQUIRE else .ok (), n1.post, [n1]⟩ ::
        ⟨if n2.status = hipSuccess then .failed Failure.REQUIRE else .ok (), n2.post, [n2]⟩ ::
        runNegative false rt n2.post ∧
      n1.kind = Kind.mallocArray false (some (rt.hipCreateChannelDesc TestType.float)) NUM_W
        NUM_H rt.hipArrayDefault ∧
      n2.kind = Kind.mallocArray true none NUM_W NUM_H rt.hipArrayDefault ∧
      n1.pre = s ∧ n2.pre = n1.post ∧ n1.Sound rt ∧ n2.Sound rt := by
  refine ⟨mallocEvent rt false (some (rt.hipCreateChannelDesc TestType.float)) NUM_W NUM_H
      rt.hipArrayDefault s, mallocEvent rt true none NUM_W NUM_H rt.hipArrayDefault _, ?_,
    (mallocEvent_facts ..).1, (mallocEvent_facts ..).1, rfl, rfl,
    (mallocEvent_facts ..).2.2, (mallocEvent_facts ..).2.2⟩
  simp only [runNegative, Unit_hipMallocArray_Negative, if_true, if_false,
    Bool.false_eq_true, List.nil_append,
    List.cons_append, List.map_cons, List.map_nil, runSections, expectFailure_run,
    expectSuccess_run]
  rfl

theorem hasNullPointer_of_kind {e : Event σ δ} {a : Bool} {d : Option δ} {w h f : Nat}
    (hk : e.kind = Kind.mallocArray a d w h f) :
    e.kind.hasNullPointer = (!a || d.isNone) := by
  rw [hk]; rfl

/-- Summary of the negative test in a build for a backend other than NVIDIA. -/
theorem negative_false_summary (rt : Runtime σ δ) (s : σ) :
    ∃ e1 e2 e3 e4 : Event σ δ,
      allCalls (runNegative false rt s) = [e1, e2, e3, e4] ∧
      tableCalls (allCalls (runNegative false rt s)) = [e1, e2, e3, e4] ∧
      nullCalls (allCalls (runNegative false rt s)) = [] ∧
      [e1, e2, e3, e4].map Event.kind =
        [Kind.mallocArray true (some (rt.hipCreateChannelDesc TestType.float)) 0 NUM_H
            rt.hipArrayDefault,
          Kind.mallocArray true (some (rt.hipCreateChannelDesc TestType.float)) NUM_W 0
            rt.hipArrayDefault,
          Kind.mallocArray true (some (rt.hipCreateChannelDesc TestType.float)) NUM_W NUM_H 100,
          Kind.mallocArray true (some (rt.hipCreateChannelDesc TestType.float)) INT_MAX INT_MAX
            rt.hipArrayDefault] ∧
      (passes (runNegative false rt s) = true ↔
        tableMet ([e1, e2, e3, e4].map Event.status) = true) ∧
      (∀ e ∈ [e1, e2, e3, e4], e.Sound rt) ∧
      (∀ r ∈ runNegative false rt s, r.failure = none ∨ r.failure = some Failure.REQUIRE) := by
  obtain ⟨e1, e2, e3, e4, hrun, k1, k2, k3, k4, -, s1, s2, s3, s4⟩ := runNegative_false rt s
  have hcalls : allCalls (runNegative false rt s) = [e1, e2, e3, e4] := by
    rw [hrun]; rfl
  have n1 := hasNullPointer_of_kind k1
  have n2 := hasNullPointer_of_kind k2
  have n3 := hasNullPointer_of_kind k3
  have n4 := hasNullPointer_of_kind k4
  simp only [Bool.not_true, Option.isNone_some, Bool.or_self] at n1 n2 n3 n4
  refine ⟨e1, e2, e3, e4, hcalls, ?_, ?_, ?_, ?_, ?_, ?_⟩
  · rw [hcalls]; simp [tableCalls, n1, n2, n3, n4]
  · rw [hcalls]; simp [nullCalls, n1, n2, n3, n4]
  · simp [k1, k2, k3, k4]
  · rw [hrun]
    by_cases h1 : e1.status = hipSuccess <;> by_cases h2 : e2.status = hipSuccess <;>
      by_cases h3 : e3.status = hipSuccess <;> by_cases h4 : e4.status = hipSuccess <;>
      simp [passes, tableMet, Run.failure, Result.failure, h1, h2, h3, h4]
  · intro e he
    simp only [List.mem_cons, List.mem_singleton, List.not_mem_nil, or_false] at he
    rcases he with h | h | h | h <;> rw [h] <;> assumption
  · intro r hr
    rw [hrun] at hr
    simp only [List.mem_cons, List.mem_singleton, List.not_mem_nil, or_false] at hr
    rcases hr with h | h | h | h <;> rw [h] <;> simp only [Run.failure] <;> split <;>
      simp [Result.failure]

/-- Summary of the negative test in a build for the NVIDIA backend. -/
theorem negative_true_summary (rt : Runtime σ δ) (s : σ) :
    ∃ n1 n2 e1 e2 e3 e4 : Event σ δ,
      allCalls (runNegative true rt s) = [n1, n2, e1, e2, e3, e4] ∧
      tableCalls (allCalls (runNegative true rt s)) = [e1, e2, e3, e4] ∧
      nullCalls (allCalls (runNegative true rt s)) = [n1, n2] ∧
      [n1, n2].map Event.kind =
        [Kind.mallocArray false (some (rt.hipCreateChannelDesc TestType.float)) NUM_W NUM_H
            rt.hipArrayDefault,
          Kind.mallocArray true none NUM_W NUM_H rt.hipArrayDefault] ∧
      [e1, e2, e3, e4].map Event.kind =
        [Kind.mallocArray true (some (rt.hipCreateChannelDesc TestType.float)) 0 NUM_H
            rt.hipArrayDefault,
          Kind.mallocArray true (some (rt.hipCreateChannelDesc TestType.float)) NUM_W 0
            rt.hipArrayDefault,
          Kind.mallocArray true (some (rt.hipCreateChannelDesc TestType.float)) NUM_W NUM_H 100,
          Kind.mallocArray true (some (rt.hipCreateChannelDesc TestType.float)) INT_MAX INT_MAX
            rt.hipArrayDefault] ∧
      (passes (runNegative true rt s) = true ↔
        (tableMet ([e1, e2, e3, e4].map Event.status) = true ∧
          n1.status ≠ hipSuccess ∧ n2.status ≠ hipSuccess)) ∧
      (∀ e ∈ [n1, n2, e1, e2, e3, e4], e.Sound rt) ∧
      (∀ r ∈ runNegative true rt s, r.failure = none ∨ r.failure = some Failure.REQUIRE) := by
  obtain ⟨n1, n2, hrunT, kn1, kn2, -, -, sn1, sn2⟩ := runNegative_true rt s
  obtain ⟨e1, e2, e3, e4, hcalls, htab, hnull, hk, hpass, hsound, hreq⟩ :=
    negative_false_summary rt n2.post
  have hcallsT : allCalls (runNegative true rt s) = [n1, n2] ++ allCalls (runNegative false rt n2.post) := by
    rw [hrunT]; rfl
  have m1 := hasNullPointer_of_kind kn1
  have m2 := hasNullPointer_of_kind kn2
  simp only [Bool.not_false, Bool.true_or, Bool.not_true, Option.isNone_none,
    Bool.or_true] at m1 m2
  refine ⟨n1, n2, e1, e2, e3, e4, by rw [hcallsT, hcalls]; rfl, ?_, ?_, ?_, hk, ?_, ?_, ?_⟩
  · unfold tableCalls at htab ⊢
    rw [hcallsT, List.filter_append, htab]
    simp [m1, m2]
  · unfold nullCalls at hnull ⊢
    rw [hcallsT, List.filter_append, hnull]
    simp [m1, m2]
  · simp [kn1, kn2]
  · rw [← hpass, hrunT]
    by_cases h1 : n1.status = hipSuccess <;> by_cases h2 : n2.status = hipSuccess <;>
      simp [passes, Run.failure, Result.failure, h1, h2]
  · intro e he
    simp only [List.mem_cons, List.mem_singleton, List.not_mem_nil, or_false] at he
    rcases he with h | h | h
    · rw [h]; exact sn1
    · rw [h]; exact sn2
    · exact hsound e (by simpa using h)
  · intro r hr
    rw [hrunT] at hr
    rcases List.mem_cons.mp hr with h | h
    · rw [h]; simp only [Run.failure]; split <;> simp [Result.failure]
    rcases List.mem_cons.mp h with h | h
    · rw [h]; simp only [Run.failure]; split <;> simp [Result.failure]
    · exact hreq r h

/-- C3 (amended): the unconditional sections of `Unit_hipMallocArray_Negative` make, with a
float descriptor, the four calls (width 0, height 4, default flags), (width 4, height 0,
default flags), (width 4, height 4, flags 100) and (width = height = maximum int, default
flags), in both builds, and the log holds the runtime's own answers.  In a build for a
backend other than NVIDIA the test case passes exactly when the four status codes are
non-success, success, non-success, non-success; in a build for NVIDIA it passes exactly
when they are so and the two null-pointer calls also return non-success. -/
theorem Negative_oracle (rt : Runtime σ δ) (s : σ) :
    (tableCalls (allCalls (runNegative false rt s))).map Event.kind =
      [Kind.mallocArray true (some (rt.hipCreateChannelDesc TestType.float)) 0 NUM_H
          rt.hipArrayDefault,
        Kind.mallocArray true (some (rt.hipCreateChannelDesc TestType.float)) NUM_W 0
          rt.hipArrayDefault,
        Kind.mallocArray true (some (rt.hipCreateChannelDesc TestType.float)) NUM_W NUM_H 100,
        Kind.mallocArray true (some (rt.hipCreateChannelDesc TestType.float)) INT_MAX INT_MAX
          rt.hipArrayDefault] ∧
    (tableCalls (allCalls (runNegative true rt s))).map Event.kind =
      (tableCalls (allCalls (runNegative false rt s))).map Event.kind ∧
    (passes (runNegative false rt s) = true ↔
      tableMet ((tableCalls (allCalls (runNegative false rt s))).map Event.status) = true) ∧
    (passes (runNegative true rt s) = true ↔
      (tableMet ((tableCalls (allCalls (runNegative true rt s))).map Event.status) = true ∧
        ∀ e ∈ nullCalls (allCalls (runNegative true rt s)), e.status ≠ hipSuccess)) ∧
    (∀ e ∈ allCalls (runNegative false rt s) ++ allCalls (runNegative true rt s),
      e.Sound rt) := by
  obtain ⟨e1, e2, e3, e4, hc, ht, -, hk, hp, hs, -⟩ := negative_false_summary rt s
  obtain ⟨n1, n2, f1, f2, f3, f4, hcT, htT, hnT, -, hkT, hpT, hsT, -⟩ :=
    negative_true_summary rt s
  refine ⟨by rw [ht, hk], by rw [ht, htT, hk, hkT], by rw [ht]; exact hp, ?_, ?_⟩
  · rw [htT, hnT, hpT]
    simp
  · intro e he
    rw [hc, hcT] at he
    rcases List.mem_append.mp he with h | h
    · exact hs e h
    · exact hsT e h

/-- C7: the two null-pointer cases of `Unit_hipMallocArray_Negative` exist only in a build
for the NVIDIA backend.  There the calls (null output pointer; null descriptor pointer;
each at 4x4 with default flags) are made and answered by the runtime, and the test fails
if either returns success.  In any other build no null-pointer call is made, and replacing
the runtime's answers to null-pointer calls by arbitrary ones changes nothing in the runs
of the test, so its verdict does not depend on them. -/
theorem Negative_null_pointer_cases (rt : Runtime σ δ) (s : σ)
    (ans : Bool → Option δ → Nat → Nat → Nat → σ → hipError_t × hipArray_t × σ) :
    (nullCalls (allCalls (runNegative true rt s))).map Event.kind =
      [Kind.mallocArray false (some (rt.hipCreateChannelDesc TestType.float)) NUM_W NUM_H
          rt.hipArrayDefault,
        Kind.mallocArray true none NUM_W NUM_H rt.hipArrayDefault] ∧
    (∀ e ∈ nullCalls (allCalls (runNegative true rt s)), e.Sound rt) ∧
    ((∃ e ∈ nullCalls (allCalls (runNegative true rt s)), e.status = hipSuccess) →
      passes (runNegative true rt s) = false) ∧
    nullCalls (allCalls (runNegative false rt s)) = [] ∧
    runNegative false (withNullAnswer rt ans) s = runNegative false rt s ∧
    passes (runNegative false (withNullAnswer rt ans) s) = passes (runNegative false rt s) := by
  obtain ⟨n1, n2, f1, f2, f3, f4, hcT, -, hnT, hkn, -, hpT, hsT, -⟩ :=
    negative_true_summary rt s
  obtain ⟨e1, e2, e3, e4, -, -, hnF, -, -, -, -⟩ := negative_false_summary rt s
  have hsame : runNegative false (withNullAnswer rt ans) s = runNegative false rt s := by
    simp [runNegative, Unit_hipMallocArray_Negative, runSections, withNullAnswer,
      hipMallocArray, TestM.bind, REQUIRE]
  refine ⟨by rw [hnT, hkn], ?_, ?_, hnF, hsame, by rw [hsame]⟩
  · intro e he
    rw [hnT] at he
    exact hsT e (by
      simp only [List.mem_cons, List.mem_singleton, List.not_mem_nil, or_false] at he ⊢
      rcases he with h | h
      · exact Or.inl h
      · exact Or.inr (Or.inl h))
  · rintro ⟨e, he, hst⟩
    rw [hnT] at he
    by_contra hpass
    have hp : passes (runNegative true rt s) = true := by simpa using hpass
    obtain ⟨-, h1, h2⟩ := hpT.mp hp
    simp only [List.mem_cons, List.mem_singleton, List.not_mem_nil, or_false] at he
    rcases he with h | h
    · rw [h] at hst; exact h1 hst
    · rw [h] at hst; exact h2 hst

/-- C4: for each element type of the template (signed int, unsigned int, float),
`Unit_hipMallocArray_Basic` builds the descriptor of that type and requests one array of
geometry 4x4 with default flags; it passes if and only if that allocation returns success
and the free of the returned handle, made right after it, returns success too.  The free is
the only other call, and it is made exactly when the allocation succeeded. -/
theorem Basic_passes_iff (rt : Runtime σ δ) (T : TestType) (s : σ) :
    T ∈ basicTypes ∧
    ((Unit_hipMallocArray_Basic rt T s).result = .ok () ↔
      ((rt.hipMallocArray true (some (rt.hipCreateChannelDesc T)) NUM_W NUM_H
          rt.hipArrayDefault s).1 = hipSuccess ∧
        (rt.hipFreeArray
          (rt.hipMallocArray true (some (rt.hipCreateChannelDesc T)) NUM_W NUM_H
            rt.hipArrayDefault s).2.1
          (rt.hipMallocArray true (some (rt.hipCreateChannelDesc T)) NUM_W NUM_H
            rt.hipArrayDefault s).2.2).1 = hipSuccess)) ∧
    (Unit_hipMallocArray_Basic rt T s).log =
      mallocEvent rt true (some (rt.hipCreateChannelDesc T)) NUM_W NUM_H rt.hipArrayDefault s ::
        (if (rt.hipMallocArray true (some (rt.hipCreateChannelDesc T)) NUM_W NUM_H
            rt.hipArrayDefault s).1 = hipSuccess then
          [freeEvent rt
            (rt.hipMallocArray true (some (rt.hipCreateChannelDesc T)) NUM_W NUM_H
              rt.hipArrayDefault s).2.1
            (rt.hipMallocArray true (some (rt.hipCreateChannelDesc T)) NUM_W NUM_H
              rt.hipArrayDefault s).2.2]
        else []) := by
  refine ⟨by cases T <;> simp [basicTypes], ?_⟩
  simp only [Unit_hipMallocArray_Basic, TestM.bind, hipMallocArray, REQUIRE, HIP_CHECK,
    hipFreeArray, mallocEvent, freeEvent]
  generalize rt.hipMallocArray true (some (rt.hipCreateChannelDesc T)) NUM_W NUM_H
    rt.hipArrayDefault s = m
  rcases m with ⟨st, a, s1⟩
  by_cases hm : st = hipSuccess
  · by_cases hf : (rt.hipFreeArray a s1).1 = hipSuccess <;> simp [hm, hf]
  · simp [hm]

/-! ## The runs of the negative test -/

theorem workerRuns_append (a b : List (MainEvent σ δ)) :
    workerRuns (a ++ b) = workerRuns a ++ workerRuns b := by
  unfold workerRuns; rw [List.filterMap_append]

theorem mainThread_append (a b : List (MainEvent σ δ)) :
    mainThread (a ++ b) = mainThread a ++ mainThread b := by
  unfold mainThread; rw [List.filter_append]

theorem apiCalls_append (a b : List (MainEvent σ δ)) :
    apiCalls (a ++ b) = apiCalls a ++ apiCalls b := by
  unfold apiCalls; rw [List.filterMap_append]

theorem warnings_append (a b : List (MainEvent σ δ)) :
    warnings (a ++ b) = warnings a ++ warnings b := by
  unfold warnings; rw [List.filterMap_append]

theorem mainSnapshots_append (a b : List (MainEvent σ δ)) :
    mainSnapshots (a ++ b) = mainSnapshots a ++ mainSnapshots b := by
  unfold mainSnapshots; rw [List.filterMap_append]

theorem workersOK_append (a b : List (MainEvent σ δ)) :
    WorkersOK (a ++ b) ↔ WorkersOK a ∧ WorkersOK b := by
  unfold WorkersOK
  rw [workerRuns_append]
  simp only [List.mem_append]
  constructor
  · intro h
    exact ⟨fun p hp => h p (Or.inl hp), fun p hp => h p (Or.inr hp)⟩
  · rintro ⟨h1, h2⟩ p (hp | hp)
    · exact h1 p hp
    · exact h2 p hp

theorem workersOK_dropLast (a : List (MainEvent σ δ)) (h : WorkersOK a) :
    WorkersOK a.dropLast := by
  intro p hp
  apply h p
  unfold workerRuns at hp ⊢
  exact (List.Sublist.filterMap _ (List.dropLast_sublist a)).subset hp

theorem andThen_of_none (r : MainRun σ δ) (k : σ → MainRun σ δ) (h : r.failure = none) :
    r.andThen k = ⟨(k r.state).failure, (k r.state).state, r.log ++ (k r.state).log⟩ := by
  unfold MainRun.andThen; rw [h]

theorem andThen_of_some (r : MainRun σ δ) (k : σ → MainRun σ δ) (f : Failure)
    (h : r.failure = some f) : r.andThen k = ⟨some f, r.state, r.log⟩ := by
  unfold MainRun.andThen; rw [h]

theorem andThen_assoc (A : MainRun σ δ) (B K : σ → MainRun σ δ) :
    (A.andThen fun s1 => (B s1).andThen K) = (A.andThen B).andThen K := by
  rcases A with ⟨fa, sa, la⟩
  cases fa with
  | some f => simp [MainRun.andThen]
  | none =>
    simp only [MainRun.andThen]
    cases hb : (B sa).failure with
    | some g => simp
    | none => simp

/-- Sequencing keeps the discipline of the threaded part. -/
theorem threadedPart_andThen (rt : Runtime σ δ) (m1 m2 : List (MainEvent σ δ))
    (o1 o2 : List Nat) (r : MainRun σ δ) (k : σ → MainRun σ δ)
    (hr : ThreadedPart rt m1 o1 r) (hk : ∀ s, ThreadedPart rt m2 o2 (k s)) :
    ThreadedPart rt (m1 ++ m2) (o1 ++ o2) (r.andThen k) := by
  obtain ⟨⟨r1, r2, r3⟩, r4, r5, r6, r7, r8⟩ := hr
  cases hf : r.failure with
  | some f =>
    rw [andThen_of_some r k f hf]
    refine ⟨⟨r1, ?_, ?_⟩, r4, r5, r6.trans (List.prefix_append _ _),
      r7.trans (List.prefix_append _ _), ?_⟩
    · rw [← r2, hf]
    · intro g hg
      exact r3 g (by rw [hf]; exact hg)
    · intro h; cases h
  | none =>
    obtain ⟨⟨k1, k2, k3⟩, k4, k5, k6, k7, k8⟩ := hk r.state
    obtain ⟨e1, e2⟩ := r8 hf
    have hrok : WorkersOK r.log := r2.mp hf
    rw [andThen_of_none r k hf]
    refine ⟨⟨?_, ?_, ?_⟩, ?_, ?_, ?_, ?_, ?_⟩
    · show WorkersOK (r.log ++ (k r.state).log).dropLast
      by_cases hnil : (k r.state).log = []
      · rw [hnil, List.append_nil]; exact workersOK_dropLast _ hrok
      · rw [List.dropLast_append_of_ne_nil _ hnil, workersOK_append]
        exact ⟨hrok, k1⟩
    · show (k r.state).failure = none ↔ WorkersOK (r.log ++ (k r.state).log)
      rw [workersOK_append, k2]
      exact ⟨fun h => ⟨hrok, h⟩, fun h => h.2⟩
    · intro g hg
      obtain ⟨i, w, hl, hw⟩ := k3 g hg
      refine ⟨i, w, ?_, hw⟩
      show (r.log ++ (k r.state).log).getLast? = _
      rw [List.getLast?_append, hl]; rfl
    · intro p hp
      rw [show (MainRun.mk (k r.state).failure (k r.state).state
        (r.log ++ (k r.state).log)).log = r.log ++ (k r.state).log from rfl,
        workerRuns_append, List.mem_append] at hp
      rcases hp with hp | hp
      · exact r4 p hp
      · exact k4 p hp
    · intro e he
      rw [show (MainRun.mk (k r.state).failure (k r.state).state
        (r.log ++ (k r.state).log)).log = r.log ++ (k r.state).log from rfl,
        List.mem_append] at he
      rcases he with he | he
      · exact r5 e he
      · exact k5 e he
    · show mainThread (r.log ++ (k r.state).log) <+: m1 ++ m2
      rw [mainThread_append, e1]
      exact (List.prefix_append_right_inj m1).mpr k6
    · show (workerRuns (r.log ++ (k r.state).log)).map Prod.fst <+: o1 ++ o2
      rw [workerRuns_append, List.map_append, e2]
      exact (List.prefix_append_right_inj o1).mpr k7
    · intro h
      obtain ⟨f1, f2⟩ := k8 h
      constructor
      · show mainThread (r.log ++ (k r.state).log) = m1 ++ m2
        rw [mainThread_append, e1, f1]
      · show (workerRuns (r.log ++ (k r.state).log)).map Prod.fst = o1 ++ o2
        rw [workerRuns_append, List.map_append, e2, f2]

theorem threadedPart_skip (rt : Runtime σ δ) (s : σ) :
    ThreadedPart rt [] [] (⟨none, s, []⟩ : MainRun σ δ) := by
  refine ⟨⟨?_, ?_, ?_⟩, ?_, ?_, ?_, ?_, ?_⟩
  · intro p hp; simp [workerRuns] at hp
  · simp [WorkersOK, workerRuns]
  · intro f hf; cases hf
  · intro p hp; simp [workerRuns] at hp
  · intro e he; simp at he
  · simp [mainThread]
  · simp [workerRuns]
  · intro _; simp [mainThread, workerRuns]

theorem threadedPart_thread (rt : Runtime σ δ) (body : TestM σ δ Unit) (s : σ) :
    ThreadedPart rt [MainEvent.thread body] [] (⟨none, s, [MainEvent.thread body]⟩ : MainRun σ δ) := by
  refine ⟨⟨?_, ?_, ?_⟩, ?_, ?_, ?_, ?_, ?_⟩
  · intro p hp; simp [workerRuns] at hp
  · simp [WorkersOK, workerRuns]
  · intro f hf; cases hf
  · intro p hp; simp [workerRuns] at hp
  · intro e he; simp at he; subst he; rfl
  · simp [mainThread, MainEvent.isWorker]
  · simp [workerRuns]
  · intro _; simp [mainThread, workerRuns, MainEvent.isWorker]

theorem threadedPart_join (rt : Runtime σ δ) (t : Nat) (s : σ) :
    ThreadedPart rt [MainEvent.join t] [] (⟨none, s, [MainEvent.join t]⟩ : MainRun σ δ) := by
  refine ⟨⟨?_, ?_, ?_⟩, ?_, ?_, ?_, ?_, ?_⟩
  · intro p hp; simp [workerRuns] at hp
  · simp [WorkersOK, workerRuns]
  · intro f hf; cases hf
  · intro p hp; simp [workerRuns] at hp
  · intro e he; simp at he; subst he; rfl
  · simp [mainThread, MainEvent.isWorker]
  · simp [workerRuns]
  · intro _; simp [mainThread, workerRuns, MainEvent.isWorker]

theorem threadedPart_worker (rt : Runtime σ δ) (i : Nat) (s : σ) :
    ThreadedPart rt [] [i] (workerStep rt i s) := by
  refine ⟨⟨?_, ?_, ?_⟩, ?_, ?_, ?_, ?_, ?_⟩
  · intro p hp; simp [workerStep, workerRuns] at hp
  · simp [WorkersOK, workerRuns, workerStep]
  · intro f hf
    exact ⟨i, MallocArrayThreadFunc rt (i : Int) s, rfl, hf⟩
  · intro p hp
    simp [workerStep, workerRuns] at hp
    subst hp
    exact ⟨s, rfl⟩
  · intro e he; simp [workerStep] at he; subst he; rfl
  · simp [mainThread, workerStep, MainEvent.isWorker]
  · simp [workerRuns, workerStep]
  · intro _; simp [mainThread, workerRuns, workerStep, MainEvent.isWorker]

/-- The start loop: one thread is constructed per index, in order; the threads the
schedule runs at once do their work in that order. -/
theorem startLoop_spec (rt : Runtime σ δ) (is : List Nat) (s : σ) :
    ThreadedPart rt
      (is.map fun (i : Nat) => MainEvent.thread (MallocArrayThreadFunc rt (i : Int)))
      (is.filter rt.runsAtStart) (startLoop rt is s) := by
  induction is generalizing s with
  | nil => exact threadedPart_skip rt s
  | cons i rest ih =>
    unfold startLoop
    have h2 : ∀ s1, ThreadedPart rt
        ([] ++ rest.map fun (i : Nat) => MainEvent.thread (MallocArrayThreadFunc rt (i : Int)))
        ((if rt.runsAtStart i = true then [i] else []) ++ rest.filter rt.runsAtStart)
        (MainRun.andThen
          (if rt.runsAtStart i = true then workerStep rt i s1 else ⟨none, s1, []⟩)
          fun s2 => startLoop rt rest s2) := by
      intro s1
      apply threadedPart_andThen
      · by_cases hs : rt.runsAtStart i = true
        · rw [if_pos hs, if_pos hs]; exact threadedPart_worker rt i s1
        · rw [if_neg hs, if_neg hs]; exact threadedPart_skip rt s1
      · intro s2; exact ih s2
    have h1 := threadedPart_andThen rt _ _ [] _
      (⟨none, rt.thread_start s, [MainEvent.thread (MallocArrayThreadFunc rt (i : Int))]⟩ :
        MainRun σ δ) _ (threadedPart_thread rt _ _) h2
    have e1 : (i :: rest).filter rt.runsAtStart =
        [] ++ ((if rt.runsAtStart i = true then [i] else []) ++ rest.filter rt.runsAtStart) := by
      by_cases hs : rt.runsAtStart i = true <;> simp [List.filter_cons, hs]
    rw [e1]
    exact h1

/-- The join loop: the threads are joined in order; a thread that has not run yet does
its work right before its join. -/
theorem joinLoop_spec (rt : Runtime σ δ) (ts : List Nat) (s : σ) :
    ThreadedPart rt (ts.map MainEvent.join)
      (ts.filter fun t => !rt.runsAtStart t) (joinLoop rt ts s) := by
  induction ts generalizing s with
  | nil => exact threadedPart_skip rt s
  | cons t rest ih =>
    unfold joinLoop
    have h2 : ∀ s1, ThreadedPart rt
        ([MainEvent.join t] ++ rest.map MainEvent.join)
        ([] ++ rest.filter fun t => !rt.runsAtStart t)
        (MainRun.andThen ⟨none, rt.thread_join t s1, [MainEvent.join t]⟩
          fun s2 => joinLoop rt rest s2) := by
      intro s1
      apply threadedPart_andThen
      · exact threadedPart_join rt t _
      · intro s2; exact ih s2
    have h0 : ThreadedPart rt [] (if rt.runsAtStart t = true then [] else [t])
        (if rt.runsAtStart t = true then ⟨none, s, []⟩ else workerStep rt t s) := by
      by_cases hs : rt.runsAtStart t = true
      · rw [if_pos hs, if_pos hs]; exact threadedPart_skip rt s
      · rw [if_neg hs, if_neg hs]; exact threadedPart_worker rt t s
    have h1 := threadedPart_andThen rt _ _ _ _ _ _ h0 h2
    have e1 : (t :: rest).filter (fun t => !rt.runsAtStart t) =
        (if rt.runsAtStart t = true then [] else [t])
          ++ ([] ++ rest.filter fun t => !rt.runsAtStart t) := by
      by_cases hs : rt.runsAtStart t = true <;> simp [List.filter_cons, hs]
    rw [e1]
    exact h1

/-- The threaded part as a whole: all threads are constructed, then all are joined, and
every index in `0, ..., n - 1` is the index of one worker. -/
theorem workerPhase_spec (rt : Runtime σ δ) (s : σ) :
    ThreadedPart rt
      ((List.range (rt.getDeviceCount s).toNat).map
          (fun (i : Nat) => MainEvent.thread (MallocArrayThreadFunc rt (i : Int)))
        ++ (List.range (rt.getDeviceCount s).toNat).map MainEvent.join)
      ((List.range (rt.getDeviceCount s).toNat).filter rt.runsAtStart
        ++ (List.range (rt.getDeviceCount s).toNat).filter fun t => !rt.runsAtStart t)
      (workerPhase rt s) := by
  unfold workerPhase
  exact threadedPart_andThen rt _ _ _ _ _ _ (startLoop_spec rt _ s)
    (fun s1 => joinLoop_spec rt _ s1)

/-- The ways a run of `Unit_hipMallocArray_MultiThread` can go. -/
theorem multiThread_run (rt : Runtime σ δ) (s : σ) :
    Unit_hipMallocArray_MultiThread rt s =
      if (rt.hipMemGetInfo s).1 = hipSuccess then
        if (workerPhase rt s).failure = none then
          if (rt.hipMemGetInfo (workerPhase rt s).state).1 = hipSuccess then
            if rt.avail s = rt.avail (workerPhase rt s).state then
              ⟨none, (workerPhase rt s).state,
                [MainEvent.getDeviceCount (rt.getDeviceCount s), MainEvent.api (infoEvent rt s)]
                  ++ (workerPhase rt s).log
                  ++ [MainEvent.api (infoEvent rt (workerPhase rt s).state)]⟩
            else
              ⟨some Failure.REQUIRE, (workerPhase rt s).state,
                [MainEvent.getDeviceCount (rt.getDeviceCount s), MainEvent.api (infoEvent rt s)]
                  ++ (workerPhase rt s).log
                  ++ [MainEvent.api (infoEvent rt (workerPhase rt s).state),
                      MainEvent.WARN leakWarning]⟩
          else
            ⟨some Failure.HIP_CHECK, (workerPhase rt s).state,
              [MainEvent.getDeviceCount (rt.getDeviceCount s), MainEvent.api (infoEvent rt s)]
                ++ (workerPhase rt s).log
                ++ [MainEvent.api (infoEvent rt (workerPhase rt s).state)]⟩
        else
          ⟨(workerPhase rt s).failure, (workerPhase rt s).state,
            [MainEvent.getDeviceCount (rt.getDeviceCount s), MainEvent.api (infoEvent rt s)]
              ++ (workerPhase rt s).log⟩
      else
        ⟨some Failure.HIP_CHECK, s,
          [MainEvent.getDeviceCount (rt.getDeviceCount s), MainEvent.api (infoEvent rt s)]⟩ := by
  unfold Unit_hipMallocArray_MultiThread
  simp only [check_memGetInfo_run]
  by_cases h1 : (rt.hipMemGetInfo s).1 = hipSuccess
  · simp only [h1, if_true]
    rw [andThen_of_none _ _ rfl, andThen_assoc]
    have hW : (MainRun.andThen (startLoop rt (List.range (rt.getDeviceCount s).toNat) s)
        fun s1 => joinLoop rt (List.range (rt.getDeviceCount s).toNat) s1)
        = workerPhase rt s := rfl
    simp only [hW]
    generalize workerPhase rt s = W
    rcases W with ⟨fw, sw, lw⟩
    cases fw with
    | some f => simp [MainRun.andThen, infoEvent, h1]
    | none =>
      by_cases h2 : (rt.hipMemGetInfo sw).1 = hipSuccess
      · by_cases h3 : rt.avail s = rt.avail sw
        · have h3' : (rt.hipMemGetInfo s).2.1 = (rt.hipMemGetInfo sw).2.1 := h3
          simp [MainRun.andThen, h1, h2, h3, h3', infoEvent]
        · have h3' : ¬ (rt.hipMemGetInfo s).2.1 = (rt.hipMemGetInfo sw).2.1 := h3
          simp [MainRun.andThen, h1, h2, h3, h3', infoEvent, leakWarning]
      · simp [MainRun.andThen, h1, h2, infoEvent]
  · simp [h1, infoEvent]

theorem threadSteps_tally {l : List (MainEvent σ δ)} (h : ∀ e ∈ l, e.isThreadStep = true) :
    apiCalls l = [] ∧ warnings l = [] ∧ mainSnapshots l = [] := by
  induction l with
  | nil => exact ⟨rfl, rfl, rfl⟩
  | cons e l ih =>
    obtain ⟨i1, i2, i3⟩ := ih (fun x hx => h x (List.mem_cons_of_mem _ hx))
    have he := h e (List.mem_cons_self _ _)
    cases e with
    | getDeviceCount n => cases he
    | api c => cases he
    | WARN m => cases he
    | thread b =>
      refine ⟨?_, ?_, ?_⟩
      · unfold apiCalls at i1 ⊢; rw [List.filterMap_cons]; exact i1
      · unfold warnings at i2 ⊢; rw [List.filterMap_cons]; exact i2
      · unfold mainSnapshots at i3 ⊢; rw [List.filterMap_cons]; exact i3
    | worker i w =>
      refine ⟨?_, ?_, ?_⟩
      · unfold apiCalls at i1 ⊢; rw [List.filterMap_cons]; exact i1
      · unfold warnings at i2 ⊢; rw [List.filterMap_cons]; exact i2
      · unfold mainSnapshots at i3 ⊢; rw [List.filterMap_cons]; exact i3
    | join t =>
      refine ⟨?_, ?_, ?_⟩
      · unfold apiCalls at i1 ⊢; rw [List.filterMap_cons]; exact i1
      · unfold warnings at i2 ⊢; rw [List.filterMap_cons]; exact i2
      · unfold mainSnapshots at i3 ⊢; rw [List.filterMap_cons]; exact i3

/-- What the log of `Unit_hipMallocArray_MultiThread` holds, by kind of step. -/
theorem multiThread_tally (rt : Runtime σ δ) (s : σ) :
    workerRuns (Unit_hipMallocArray_MultiThread rt s).log =
      (if (rt.hipMemGetInfo s).1 = hipSuccess then workerRuns (workerPhase rt s).log
        else []) ∧
    apiCalls (Unit_hipMallocArray_MultiThread rt s).log =
      (if (rt.hipMemGetInfo s).1 = hipSuccess ∧ (workerPhase rt s).failure = none then
        [infoEvent rt s, infoEvent rt (workerPhase rt s).state]
      else [infoEvent rt s]) ∧
    mainSnapshots (Unit_hipMallocArray_MultiThread rt s).log =
      (if (rt.hipMemGetInfo s).1 = hipSuccess ∧ (workerPhase rt s).failure = none then
        [rt.avail s, rt.avail (workerPhase rt s).state]
      else [rt.avail s]) ∧
    warnings (Unit_hipMallocArray_MultiThread rt s).log =
      (if (rt.hipMemGetInfo s).1 = hipSuccess ∧ (workerPhase rt s).failure = none ∧
          (rt.hipMemGetInfo (workerPhase rt s).state).1 = hipSuccess ∧
          rt.avail s ≠ rt.avail (workerPhase rt s).state then [leakWarning]
        else []) := by
  obtain ⟨-, -, k5, -, -, -⟩ := workerPhase_spec rt s
  obtain ⟨t1, t2, t3⟩ := threadSteps_tally k5
  have hh : ∀ X : List (MainEvent σ δ),
      workerRuns ([MainEvent.getDeviceCount (rt.getDeviceCount s),
        MainEvent.api (infoEvent rt s)] ++ X) = workerRuns X ∧
      apiCalls ([MainEvent.getDeviceCount (rt.getDeviceCount s),
        MainEvent.api (infoEvent rt s)] ++ X) = infoEvent rt s :: apiCalls X ∧
      mainSnapshots ([MainEvent.getDeviceCount (rt.getDeviceCount s),
        MainEvent.api (infoEvent rt s)] ++ X) = rt.avail s :: mainSnapshots X ∧
      warnings ([MainEvent.getDeviceCount (rt.getDeviceCount s),
        MainEvent.api (infoEvent rt s)] ++ X) = warnings X := by
    intro X
    refine ⟨?_, ?_, ?_, ?_⟩
    · rw [workerRuns_append]; rfl
    · rw [apiCalls_append]; rfl
    · rw [mainSnapshots_append]; rfl
    · rw [warnings_append]; rfl
  have hq : ∀ t : σ,
      workerRuns [(MainEvent.api (infoEvent rt t) : MainEvent σ δ)] = [] ∧
      apiCalls [(MainEvent.api (infoEvent rt t) : MainEvent σ δ)] = [infoEvent rt t] ∧
      mainSnapshots [(MainEvent.api (infoEvent rt t) : MainEvent σ δ)] = [rt.avail t] ∧
      warnings [(MainEvent.api (infoEvent rt t) : MainEvent σ δ)] = [] :=
    fun t => ⟨rfl, rfl, rfl, rfl⟩
  have hqw : ∀ t : σ,
      workerRuns [(MainEvent.api (infoEvent rt t) : MainEvent σ δ),
        MainEvent.WARN leakWarning] = [] ∧
      apiCalls [(MainEvent.api (infoEvent rt t) : MainEvent σ δ),
        MainEvent.WARN leakWarning] = [infoEvent rt t] ∧
      mainSnapshots [(MainEvent.api (infoEvent rt t) : MainEvent σ δ),
        MainEvent.WARN leakWarning] = [rt.avail t] ∧
      warnings [(MainEvent.api (infoEvent rt t) : MainEvent σ δ),
        MainEvent.WARN leakWarning] = [leakWarning] :=
    fun t => ⟨rfl, rfl, rfl, rfl⟩
  rw [multiThread_run]
  by_cases h1 : (rt.hipMemGetInfo s).1 = hipSuccess
  · by_cases hW : (workerPhase rt s).failure = none
    · by_cases h2 : (rt.hipMemGetInfo (workerPhase rt s).state).1 = hipSuccess
      · by_cases h3 : rt.avail s = rt.avail (workerPhase rt s).state
        · simp only [if_pos h1, if_pos hW, if_pos h2, if_pos h3, List.append_assoc]
          rw [(hh _).1, (hh _).2.1, (hh _).2.2.1, (hh _).2.2.2, workerRuns_append,
            apiCalls_append, mainSnapshots_append, warnings_append, t1, t2, t3,
            (hq _).1, (hq _).2.1, (hq _).2.2.1, (hq _).2.2.2]
          simp [h1, hW, h2, h3]
        · simp only [if_pos h1, if_pos hW, if_pos h2, if_neg h3, List.append_assoc]
          rw [(hh _).1, (hh _).2.1, (hh _).2.2.1, (hh _).2.2.2, workerRuns_append,
            apiCalls_append, mainSnapshots_append, warnings_append, t1, t2, t3,
            (hqw _).1, (hqw _).2.1, (hqw _).2.2.1, (hqw _).2.2.2]
          simp [h1, hW, h2, h3]
      · simp only [if_pos h1, if_pos hW, if_neg h2, List.append_assoc]
        rw [(hh _).1, (hh _).2.1, (hh _).2.2.1, (hh _).2.2.2, workerRuns_append,
          apiCalls_append, mainSnapshots_append, warnings_append, t1, t2, t3,
          (hq _).1, (hq _).2.1, (hq _).2.2.1, (hq _).2.2.2]
        simp [h1, hW, h2]
    · simp only [if_pos h1, if_neg hW]
      rw [(hh _).1, (hh _).2.1, (hh _).2.2.1, (hh _).2.2.2, t1, t2, t3]
      simp [h1, hW]
  · simp only [if_neg h1]
    have e0 : [MainEvent.getDeviceCount (rt.getDeviceCount s), MainEvent.api (infoEvent rt s)]
        = [MainEvent.getDeviceCount (rt.getDeviceCount s), MainEvent.api (infoEvent rt s)]
          ++ ([] : List (MainEvent σ δ)) := rfl
    rw [e0, (hh _).1, (hh _).2.1, (hh _).2.2.1, (hh _).2.2.2]
    simp [h1, workerRuns, apiCalls, mainSnapshots, warnings]

theorem multiThread_failure (rt : Runtime σ δ) (s : σ) :
    (Unit_hipMallocArray_MultiThread rt s).failure =
      if (rt.hipMemGetInfo s).1 = hipSuccess then
        if (workerPhase rt s).failure = none then
          if (rt.hipMemGetInfo (workerPhase rt s).state).1 = hipSuccess then
            if rt.avail s = rt.avail (workerPhase rt s).state then none
            else some Failure.REQUIRE
          else some Failure.HIP_CHECK
        else (workerPhase rt s).failure
      else some Failure.HIP_CHECK := by
  rw [multiThread_run]
  split_ifs <;> rfl

theorem mallocs_set_cons (rt : Runtime σ δ) (gpu : Int) (s : σ) (l : List (Event σ δ)) :
    mallocs (setEvent rt gpu s :: l) = mallocs l := by
  unfold mallocs
  rw [List.filter_cons_of_neg]
  simp [setEvent, Event.isMalloc]

theorem frees_set_cons (rt : Runtime σ δ) (gpu : Int) (s : σ) (l : List (Event σ δ)) :
    frees (setEvent rt gpu s :: l) = frees l := by
  unfold frees
  rw [List.filter_cons_of_neg]
  simp [setEvent, Event.isFree]

/-- A run in which device selection and the small geometry succeed continues with the
large geometry. -/
theorem diffSizes_of_ok (rt : Runtime σ δ) (gpu : Int) (s : σ)
    (h0 : (rt.hipSetDevice gpu s).1 = hipSuccess)
    (h1 : (sizeBody rt NUM_W (rt.hipSetDevice gpu s).2).result = .ok ()) :
    MallocArray_DiffSizes rt gpu s =
      ⟨(sizeBody rt BIGNUM_W (sizeBody rt NUM_W (rt.hipSetDevice gpu s).2).state).result,
        (sizeBody rt BIGNUM_W (sizeBody rt NUM_W (rt.hipSetDevice gpu s).2).state).state,
        setEvent rt gpu s :: ((sizeBody rt NUM_W (rt.hipSetDevice gpu s).2).log ++
          (sizeBody rt BIGNUM_W (sizeBody rt NUM_W (rt.hipSetDevice gpu s).2).state).log)⟩ := by
  rcases diffSizes_cases rt gpu s with ⟨hb, -⟩ | ⟨-, f, hb, -⟩ | ⟨-, -, hrun⟩
  · exact absurd h0 hb
  · rw [h1] at hb; cases hb
  · exact hrun

set_option maxRecDepth 100000 in
set_option maxHeartbeats 4000000 in
theorem host_small_result : (sizeBody hostRuntime NUM_W hostStart).result = .ok () := by
  decide

set_option maxRecDepth 100000 in
set_option maxHeartbeats 4000000 in
theorem host_small_state : (sizeBody hostRuntime NUM_W hostStart).state = hostAfterSmall := by
  decide

set_option maxRecDepth 100000 in
set_option maxHeartbeats 4000000 in
theorem host_large_result : (sizeBody hostRuntime BIGNUM_W hostAfterSmall).result = .ok () := by
  decide

set_option maxRecDepth 100000 in
set_option maxHeartbeats 4000000 in
theorem host_large_state :
    (sizeBody hostRuntime BIGNUM_W hostAfterSmall).state = hostAfterSweep := by
  decide

set_option maxRecDepth 100000 in
set_option maxHeartbeats 4000000 in
theorem host_small_statuses :
    ∀ e ∈ (sizeBody hostRuntime NUM_W hostStart).log, e.status = hipSuccess := by
  decide

set_option maxRecDepth 100000 in
set_option maxHeartbeats 4000000 in
theorem host_large_statuses :
    ∀ e ∈ (sizeBody hostRuntime BIGNUM_W hostAfterSmall).log, e.status = hipSuccess := by
  decide

set_option maxRecDepth 100000 in
set_option maxHeartbeats 4000000 in
theorem host_small_balanced :
    (mallocs (sizeBody hostRuntime NUM_W hostStart).log).length =
      (frees (sizeBody hostRuntime NUM_W hostStart).log).length ∧
    ∀ p ∈ List.zip (mallocs (sizeBody hostRuntime NUM_W hostStart).log)
        (frees (sizeBody hostRuntime NUM_W hostStart).log),
      bytesTaken hostRuntime p.1 = bytesGivenBack hostRuntime p.2 := by
  decide

set_option maxRecDepth 100000 in
set_option maxHeartbeats 4000000 in
theorem host_large_balanced :
    ∀ p ∈ List.zip (mallocs (sizeBody hostRuntime BIGNUM_W hostAfterSmall).log)
        (frees (sizeBody hostRuntime BIGNUM_W hostAfterSmall).log),
      bytesTaken hostRuntime p.1 = bytesGivenBack hostRuntime p.2 := by
  decide

/-- The run of `MallocArray_DiffSizes` on the reference runtime. -/
theorem host_run :
    MallocArray_DiffSizes hostRuntime 0 hostStart =
      ⟨.ok (), hostAfterSweep,
        setEvent hostRuntime 0 hostStart :: ((sizeBody hostRuntime NUM_W hostStart).log ++
          (sizeBody hostRuntime BIGNUM_W hostAfterSmall).log)⟩ := by
  have hs : hostRuntime.hipSetDevice 0 hostStart = (hipSuccess, hostStart) := by decide
  have h := diffSizes_of_ok hostRuntime 0 hostStart
  rw [hs] at h
  simp only [host_small_state, host_large_result, host_large_state] at h
  exact h trivial host_small_result

theorem host_run_statuses :
    ∀ e ∈ (MallocArray_DiffSizes hostRuntime 0 hostStart).log, e.status = hipSuccess := by
  rw [host_run]
  intro e he
  rcases List.mem_cons.mp he with h | h
  · rw [h]; rfl
  rcases List.mem_append.mp h with h | h
  · exact host_small_statuses e h
  · exact host_large_statuses e h

theorem host_run_balanced :
    ∀ p ∈ List.zip (mallocs (MallocArray_DiffSizes hostRuntime 0 hostStart).log)
        (frees (MallocArray_DiffSizes hostRuntime 0 hostStart).log),
      bytesTaken hostRuntime p.1 = bytesGivenBack hostRuntime p.2 := by
  rw [host_run]
  have hm : mallocs (setEvent hostRuntime 0 hostStart ::
      ((sizeBody hostRuntime NUM_W hostStart).log ++
        (sizeBody hostRuntime BIGNUM_W hostAfterSmall).log)) =
      mallocs (sizeBody hostRuntime NUM_W hostStart).log ++
        mallocs (sizeBody hostRuntime BIGNUM_W hostAfterSmall).log := by
    rw [mallocs_set_cons, mallocs_append]
  have hf : frees (setEvent hostRuntime 0 hostStart ::
      ((sizeBody hostRuntime NUM_W hostStart).log ++
        (sizeBody hostRuntime BIGNUM_W hostAfterSmall).log)) =
      frees (sizeBody hostRuntime NUM_W hostStart).log ++
        frees (sizeBody hostRuntime BIGNUM_W hostAfterSmall).log := by
    rw [frees_set_cons, frees_append]
  simp only [hm, hf]
  rw [List.zip_append host_small_balanced.1]
  intro p hp
  rcases List.mem_append.mp hp with h | h
  · exact host_small_balanced.2 p h
  · exact host_large_balanced p h

/-- Witness for C1: on the reference runtime with 5,000,000 bytes every call of the run
succeeds and every free gives back what its allocation took, and the run passes. -/
theorem MallocArray_DiffSizes_balanced_passes_witness :
    (∀ e ∈ (MallocArray_DiffSizes hostRuntime 0 hostStart).log, e.status = hipSuccess) ∧
    (∀ p ∈ List.zip (mallocs (MallocArray_DiffSizes hostRuntime 0 hostStart).log)
        (frees (MallocArray_DiffSizes hostRuntime 0 hostStart).log),
      bytesTaken hostRuntime p.1 = bytesGivenBack hostRuntime p.2) ∧
    (MallocArray_DiffSizes hostRuntime 0 hostStart).result = .ok () ∧
    ∃ a b, snapshots (MallocArray_DiffSizes hostRuntime 0 hostStart).log = [a, a, b, b] :=
  ⟨host_run_statuses, host_run_balanced,
    (MallocArray_DiffSizes_balanced_passes hostRuntime 0 hostStart host_run_statuses
      host_run_balanced).1,
    (MallocArray_DiffSizes_balanced_passes hostRuntime 0 hostStart host_run_statuses
      host_run_balanced).2.2.2⟩

set_option maxRecDepth 100000 in
set_option maxHeartbeats 4000000 in
theorem tight_third_alloc :
    (mallocsOf NUM_W NUM_H (MallocArray_DiffSizes hostRuntime 0 tightStart).log)[3 - 1]?
      = some refusedAlloc := by
  decide

/-- Witness for C10: with room for two small arrays only, the third allocation of the small
geometry is refused, and the run consists of device selection, one snapshot and three
allocations. -/
theorem MallocArray_DiffSizes_fail_fast_witness :
    (mallocsOf NUM_W NUM_H (MallocArray_DiffSizes hostRuntime 0 tightStart).log)[3 - 1]?
      = some refusedAlloc ∧
    refusedAlloc.status ≠ hipSuccess ∧
    (MallocArray_DiffSizes hostRuntime 0 tightStart).failure = some Failure.HIP_CHECK ∧
    (MallocArray_DiffSizes hostRuntime 0 tightStart).log.getLast? = some refusedAlloc ∧
    (MallocArray_DiffSizes hostRuntime 0 tightStart).log.map Event.kind =
      [Kind.setDevice 0, Kind.memGetInfo] ++ List.replicate 3 (Kind.mallocArray true
        (some (hostRuntime.hipCreateChannelDesc TestType.float)) NUM_W NUM_H
        hostRuntime.hipArrayDefault) := by
  have h := MallocArray_DiffSizes_fail_fast hostRuntime 0 tightStart NUM_W NUM_H 3
    refusedAlloc (Or.inl ⟨rfl, rfl⟩) (by decide) tight_third_alloc (by decide)
  refine ⟨tight_third_alloc, by decide, h.1, h.2.1, ?_⟩
  have h5 := h.2.2.2.2
  rw [if_pos rfl] at h5
  exact h5

theorem andThen_mk_none (s : σ) (l : List (MainEvent σ δ)) (k : σ → MainRun σ δ) :
    MainRun.andThen ⟨none, s, l⟩ k = ⟨(k s).failure, (k s).state, l ++ (k s).log⟩ := rfl

theorem host_worker :
    workerStep hostRuntime 0 hostStart =
      ⟨none, hostAfterSweep, [MainEvent.worker 0 (MallocArray_DiffSizes hostRuntime 0 hostStart)]⟩ := by
  have h0 : ((0 : Nat) : Int) = 0 := rfl
  unfold workerStep MallocArrayThreadFunc
  rw [h0]
  have hf : (MallocArray_DiffSizes hostRuntime 0 hostStart).failure = none := by
    rw [host_run]; rfl
  have hs : (MallocArray_DiffSizes hostRuntime 0 hostStart).state = hostAfterSweep := by
    rw [host_run]
  rw [hf, hs]

/-- The threaded part on the reference runtime: the one worker runs at its start and
passes, and its join leaves 4096 bytes behind. -/
theorem host_workerPhase :
    workerPhase hostRuntime hostStart =
      ⟨none, hostAfterThread,
        [MainEvent.thread (MallocArrayThreadFunc hostRuntime ((0 : Nat) : Int)),
          MainEvent.worker 0 (MallocArray_DiffSizes hostRuntime 0 hostStart),
          MainEvent.join 0]⟩ := by
  have hn : (hostRuntime.getDeviceCount hostStart).toNat = 1 := by decide
  have hr : List.range 1 = [0] := by decide
  have hsched : hostRuntime.runsAtStart 0 = true := rfl
  have hstart : hostRuntime.thread_start hostStart = hostStart := rfl
  have hjoin : hostRuntime.thread_join 0 hostAfterSweep = hostAfterThread := by decide
  unfold workerPhase
  rw [hn, hr]
  simp only [startLoop, joinLoop, hsched, if_true, andThen_mk_none, hstart, host_worker,
    hjoin]
  rfl

/-- The multi-thread test on the reference runtime: the worker passes, the snapshots
differ by the 4096 bytes the joined thread leaves behind. -/
theorem host_multiThread :
    (Unit_hipMallocArray_MultiThread hostRuntime hostStart).failure
      = some Failure.REQUIRE ∧
    mainSnapshots (Unit_hipMallocArray_MultiThread hostRuntime hostStart).log
      = [5000000, 4995904] ∧
    warnings (Unit_hipMallocArray_MultiThread hostRuntime hostStart).log = [leakWarning] ∧
    WorkersOK (Unit_hipMallocArray_MultiThread hostRuntime hostStart).log := by
  have h1 : (hostRuntime.hipMemGetInfo hostStart).1 = hipSuccess := by decide
  have h2 : (hostRuntime.hipMemGetInfo hostAfterThread).1 = hipSuccess := by decide
  have h3 : ¬ (hostRuntime.avail hostStart = hostRuntime.avail hostAfterThread) := by decide
  have hW : (workerPhase hostRuntime hostStart).failure = none := by
    rw [host_workerPhase]
  have hS : (workerPhase hostRuntime hostStart).state = hostAfterThread := by
    rw [host_workerPhase]
  have hL : workerRuns (workerPhase hostRuntime hostStart).log
      = [(0, MallocArray_DiffSizes hostRuntime 0 hostStart)] := by
    rw [host_workerPhase]; rfl
  obtain ⟨tw, -, ts, twarn⟩ := multiThread_tally hostRuntime hostStart
  have hf := multiThread_failure hostRuntime hostStart
  rw [hS] at ts twarn hf
  rw [if_pos h1, if_pos hW, if_pos h2, if_neg h3] at hf
  rw [if_pos ⟨h1, hW⟩] at ts
  rw [if_pos ⟨h1, hW, h2, h3⟩] at twarn
  rw [if_pos h1, hL] at tw
  refine ⟨hf, ts.trans (by decide), twarn, ?_⟩
  have hfail : (MallocArray_DiffSizes hostRuntime 0 hostStart).failure = none := by
    rw [host_run]; rfl
  intro p hp
  rw [tw, List.mem_singleton] at hp
  subst hp
  dsimp only
  exact hfail

/-- Counterexample to C3 as stated: in a build for the NVIDIA backend, on a runtime that
answers the four unconditional calls as the table demands but accepts null pointers, the
test case fails although the four status codes match the table. -/
theorem Negative_table_not_sufficient_on_nvidia :
    tableMet ((tableCalls (allCalls (runNegative true (ledgerRuntime laxConfig)
      hostStart))).map Event.status) = true ∧
    passes (runNegative true (ledgerRuntime laxConfig) hostStart) = false ∧
    ¬ (passes (runNegative true (ledgerRuntime laxConfig) hostStart) = true ↔
      tableMet ((tableCalls (allCalls (runNegative true (ledgerRuntime laxConfig)
        hostStart))).map Event.status) = true) := by
  decide

/-- C9 (evaluation at the failing input): in a run of `Unit_hipMallocArray_Negative` on
the reference runtime every expectation is met, the allocation of the section "Height 0"
succeeds and delivers handle 1, it is the only successful allocation, and no free call is
made at all: the handle is never released. -/
theorem Negative_height0_handle_never_freed :
    passes (runNegative false hostRuntime hostStart) = true ∧
    ((mallocs (allCalls (runNegative false hostRuntime hostStart))).filter
      (fun e => e.status == hipSuccess)).map Event.kind =
      [Kind.mallocArray true (some TestType.float) NUM_W 0 0] ∧
    allocatedHandles ((allCalls (runNegative false hostRuntime hostStart)).filter
      (fun e => e.status == hipSuccess)) = [1] ∧
    frees (allCalls (runNegative false hostRuntime hostStart)) = [] ∧
    freedHandles (allCalls (runNegative false hostRuntime hostStart)) = [] := by
  decide

/-- C6 (evaluation at the failing input): on the reference runtime, where the one worker
passes but its joined thread leaves 4096 bytes behind, the two snapshots of
`Unit_hipMallocArray_MultiThread` differ; the test then emits exactly one warning and
fails through `REQUIRE`.  The warning's text names `hipMalloc3D`; it does not mention
`hipMallocArray`, the API under test. -/
theorem MultiThread_warning_names_hipMalloc3D :
    mainSnapshots (Unit_hipMallocArray_MultiThread hostRuntime hostStart).log
      = [5000000, 4995904] ∧
    (Unit_hipMallocArray_MultiThread hostRuntime hostStart).failure = some Failure.REQUIRE ∧
    warnings (Unit_hipMallocArray_MultiThread hostRuntime hostStart).log
      = ["Memory leak of hipMalloc3D API in multithreaded scenario"] ∧
    mentions "Memory leak of hipMalloc3D API in multithreaded scenario" "hipMalloc3D" = true ∧
    mentions "Memory leak of hipMalloc3D API in multithreaded scenario" "hipMallocArray"
      = false := by
  obtain ⟨hf, hs, hw, -⟩ := host_multiThread
  exact ⟨hs, hf, hw, by decide, by decide⟩

/-- A failing worker on the reference runtime: on a device with room for two small arrays
only, the worker's third allocation is refused, the worker ends in `HIP_CHECK`, and so
does the test: the main thread takes no second snapshot and emits no warning. -/
theorem multiThread_worker_failure_example :
    (Unit_hipMallocArray_MultiThread hostRuntime tightStart).failure
      = some Failure.HIP_CHECK ∧
    (workerRuns (Unit_hipMallocArray_MultiThread hostRuntime tightStart).log).map
      (fun p => (p.1, p.2.failure)) = [(0, some Failure.HIP_CHECK)] ∧
    mainSnapshots (Unit_hipMallocArray_MultiThread hostRuntime tightStart).log = [150] ∧
    warnings (Unit_hipMallocArray_MultiThread hostRuntime tightStart).log = [] := by
  decide

end HipMallocArray
